import Mathlib

/-!
Shallow embedding of the Python-sublanguage interpreter
(lexer.cpp, parser.cpp, visitor.cpp, semantics.cpp, token.h, error.h)
together with proofs about the claims of its specification.

Conventions of the embedding:
* C++ vectors used as stacks (push_back/back/pop_back) are modelled as
  Lean lists whose HEAD is the stack top.
* Exceptions are modelled with Except; the failure type Fail has one
  constructor err carrying the categorized Error of error.h, one
  constructor fuel for exhaustion of the step budget of the embedding
  (the C++ code may loop forever; all claims are conditioned on ok
  results or are evaluated with enough fuel), and one constructor stuck
  for executions whose next C++ step has undefined behaviour (an
  out-of-bounds vector access such as back() on an empty vector).
* Error message strings follow the source but drop quote characters.
-/

/-- ErrorCode from error.h. -/
inductive ErrorCode
  | MISSING_FILE_ERROR
  | FILE_OPEN_ERROR
  | INDENTATION_ERROR
  | LEXICAL_ERROR
  | RESERVED_KEYWORD_ERROR
  | SYNTAX_ERROR
  | INTERNAL_ERROR
  | SEMANTIC_ERROR
  | INDEX_ERROR
  | EVALUATION_ERROR
  | ZERO_DIVISION
  | TYPE_ERROR
deriving Repr, DecidableEq

/-- Class Error of error.h: code, position and message. -/
structure Err where
  code : ErrorCode
  line : Nat
  col : Nat
  msg : String
deriving Repr, DecidableEq

/-- Failure of an embedded computation: a categorized error thrown by the
source, exhaustion of the step budget, or a step whose C++ behaviour is
undefined (out-of-bounds access). -/
inductive Fail
  | err (e : Err)
  | fuel
  | stuck
deriving Repr, DecidableEq

/-- Throw helper mirroring class LexicalError. -/
def lexErr {α : Type} (line col : Nat) (m : String) : Except Fail α :=
  .error (.err ⟨.LEXICAL_ERROR, line, col, m⟩)

/-- Throw helper mirroring class IndentationError. -/
def indErr {α : Type} (line col : Nat) (m : String) : Except Fail α :=
  .error (.err ⟨.INDENTATION_ERROR, line, col, m⟩)

/-- Throw helper mirroring class SyntaxError. -/
def synErr {α : Type} (line col : Nat) (m : String) : Except Fail α :=
  .error (.err ⟨.SYNTAX_ERROR, line, col, m⟩)

/-- Throw helper mirroring class InternalError. -/
def intErr {α : Type} (line col : Nat) (m : String) : Except Fail α :=
  .error (.err ⟨.INTERNAL_ERROR, line, col, m⟩)

/-- Throw helper mirroring class SemanticError. -/
def semErr {α : Type} (line col : Nat) (m : String) : Except Fail α :=
  .error (.err ⟨.SEMANTIC_ERROR, line, col, m⟩)

/-- Throw helper mirroring class TypeError. -/
def typErr {α : Type} (line col : Nat) (m : String) : Except Fail α :=
  .error (.err ⟨.TYPE_ERROR, line, col, m⟩)

/-- Throw helper mirroring class ZeroDivisionError. -/
def zdvErr {α : Type} (line col : Nat) (m : String) : Except Fail α :=
  .error (.err ⟨.ZERO_DIVISION, line, col, m⟩)

/-- Tags of ReservedKeywordToken (token.h). -/
inductive KwTag
  | IF | ELIF | ELSE | WHILE | CONTINUE | BREAK | LIST | APPEND | PRINT
deriving Repr, DecidableEq

/-- Tags of BoolOpToken (token.h). -/
inductive BoolOpTag
  | AND | OR | NOT
deriving Repr, DecidableEq

/-- Tags of RelationalToken (token.h). -/
inductive RelTag
  | EQ | NEQ | LT | LE | GT | GE
deriving Repr, DecidableEq

/-- Tags of ArithmeticToken (token.h). -/
inductive ArithTag
  | ADD | SUB | MUL | DIV
deriving Repr, DecidableEq

/-- Tags of PunctuationToken (token.h): colon, period, parentheses,
brackets. -/
inductive PunctTag
  | COL | PERIOD | LPAR | RPAR | LBRACK | RBRACK
deriving Repr, DecidableEq

/-- Token (token.h): every concrete token class becomes one constructor;
every token stores its line and column. -/
inductive Tok
  | number (v : Int) (line col : Nat)
  | bool (v : Bool) (line col : Nat)
  | id (v : String) (line col : Nat)
  | newline (line col : Nat)
  | eof (line col : Nat)
  | indentation (isIndent : Bool) (line col : Nat)
  | assign (line col : Nat)
  | arith (op : ArithTag) (line col : Nat)
  | rel (op : RelTag) (line col : Nat)
  | boolop (op : BoolOpTag) (line col : Nat)
  | keyword (k : KwTag) (line col : Nat)
  | punct (p : PunctTag) (line col : Nat)
deriving Repr, DecidableEq

/-- Line stored in a token. -/
def Tok.lin : Tok → Nat
  | .number _ l _ => l | .bool _ l _ => l | .id _ l _ => l
  | .newline l _ => l | .eof l _ => l | .indentation _ l _ => l
  | .assign l _ => l | .arith _ l _ => l | .rel _ l _ => l
  | .boolop _ l _ => l | .keyword _ l _ => l | .punct _ l _ => l

/-- Column stored in a token. -/
def Tok.colm : Tok → Nat
  | .number _ _ c => c | .bool _ _ c => c | .id _ _ c => c
  | .newline _ c => c | .eof _ c => c | .indentation _ _ c => c
  | .assign _ c => c | .arith _ _ c => c | .rel _ _ c => c
  | .boolop _ _ c => c | .keyword _ _ c => c | .punct _ _ c => c

/-! Lexer (lexer.cpp). -/

/-- Character class test written as in the source:
(ch >= a and ch <= z) or (ch >= A and ch <= Z). -/
def isLetterCh (c : Char) : Bool :=
  ('a' ≤ c && c ≤ 'z') || ('A' ≤ c && c ≤ 'Z')

/-- Character class of the identifier inner loop: letters or digits. -/
def isWordCh (c : Char) : Bool :=
  isLetterCh c || ('0' ≤ c && c ≤ '9')

/-- Digit 1..9 as tested for the start of a number literal. -/
def isDigit19 (c : Char) : Bool := '1' ≤ c && c ≤ '9'

/-- Digit 0..9 as tested by the peek loops. -/
def isDigit09 (c : Char) : Bool := '0' ≤ c && c ≤ '9'

/-- The inner peek-and-get loops of the lexer: consume the longest prefix
satisfying p, returning it and the rest of the input. -/
def takeWhileCh (p : Char → Bool) : List Char → List Char × List Char
  | [] => ([], [])
  | c :: rest =>
    if p c then
      let r := takeWhileCh p rest
      (c :: r.1, r.2)
    else ([], c :: rest)

/-- Value of a digit string, as produced by std::stoi in the
NumberToken constructor (token.cpp); digit strings always parse. -/
def digitsToInt (w : List Char) : Int :=
  Int.ofNat (w.foldl (fun a c => a * 10 + (c.toNat - '0'.toNat)) 0)

/-- Classification of a scanned word, mirroring the if-chain of
Lexer::tokenizeInputFile: reserved keywords first, then boolean
operators, then boolean literals, otherwise an identifier. -/
def classifyWord (w : List Char) (line col : Nat) : Tok :=
  if w = ['i', 'f'] then .keyword .IF line col
  else if w = ['e', 'l', 'i', 'f'] then .keyword .ELIF line col
  else if w = ['e', 'l', 's', 'e'] then .keyword .ELSE line col
  else if w = ['w', 'h', 'i', 'l', 'e'] then .keyword .WHILE line col
  else if w = ['c', 'o', 'n', 't', 'i', 'n', 'u', 'e'] then .keyword .CONTINUE line col
  else if w = ['b', 'r', 'e', 'a', 'k'] then .keyword .BREAK line col
  else if w = ['l', 'i', 's', 't'] then .keyword .LIST line col
  else if w = ['a', 'p', 'p', 'e', 'n', 'd'] then .keyword .APPEND line col
  else if w = ['p', 'r', 'i', 'n', 't'] then .keyword .PRINT line col
  else if w = ['a', 'n', 'd'] then .boolop .AND line col
  else if w = ['o', 'r'] then .boolop .OR line col
  else if w = ['n', 'o', 't'] then .boolop .NOT line col
  else if w = ['T', 'r', 'u', 'e'] then .bool true line col
  else if w = ['F', 'a', 'l', 's', 'e'] then .bool false line col
  else .id (String.mk w) line col

/-- Lexer state: position counters, the two stacks of lexer.h (head is
the stack top), the indentation counters of the main loop, and the
tokens emitted so far in reverse order (so that the head is the most
recent token, matching res.back()). -/
structure LexSt where
  line : Nat
  col : Nat
  indentStack : List Nat
  parStack : List Nat
  nT : Nat
  indent : Bool
  res : List Tok
deriving Repr

/-- Initial lexer state (lexer.h member initializers). -/
def initLexSt : LexSt :=
  { line := 1, col := 0, indentStack := [0], parStack := [],
    nT := 0, indent := true, res := [] }

/-- True when the most recently emitted token is a NewLineToken
(res.back()->getType() == NEWLINE_TOKEN). -/
def headIsNewline : List Tok → Bool
  | .newline _ _ :: _ => true
  | _ => false

/-- The dedent-emitting pop loop:
while (n_t < indentStack_.back()) do pop_back and emit one Dedent.
Returns the remaining stack and the token accumulator extended with the
emitted Dedent tokens.  An empty stack stops the loop here; the caller
treats that case as the undefined back() access it is in C++. -/
def popDedents (nT line col : Nat) : List Nat → List Tok → List Nat × List Tok
  | [], acc => ([], acc)
  | top :: rest, acc =>
    if nT < top then popDedents nT line col rest (.indentation false line col :: acc)
    else (top :: rest, acc)

/-- End-of-file loop: while (indentStack_.size() > 1) pop and emit one
Dedent. -/
def drainDedents (line col : Nat) : List Nat → List Tok
  | [] => []
  | [_] => []
  | _ :: b :: rest => .indentation false line col :: drainDedents line col (b :: rest)

/-- Branches two and three of the indentation handling inside the main
loop: they update the state and fall through to token scanning.  On the
first non-whitespace character of a line the indentation level is
compared with the stack top; line and col are the counters updated for
the current character. -/
def indentHandle (ch : Char) (line col : Nat) (st : LexSt) : Except Fail LexSt :=
  if (!(ch == ' ') && !(ch == '\t') && !(ch == '\n') && !(ch == '\r')) && st.indent then
    let st1 := { st with indent := false }
    match st1.indentStack with
    | [] => .error .stuck
    | top :: _ =>
      if st1.nT > top then
        .ok { st1 with indentStack := st1.nT :: st1.indentStack,
                       res := .indentation true line col :: st1.res, nT := 0 }
      else if st1.nT < top then
        let pr := popDedents st1.nT line col st1.indentStack st1.res
        match pr.1 with
        | [] => .error .stuck
        | top2 :: rest2 =>
          if st1.nT ≠ top2 then indErr line col "Invalid indentation level"
          else .ok { st1 with indentStack := top2 :: rest2, res := pr.2, nT := 0 }
      else .ok { st1 with nT := 0 }
  else if ch == '\n' || ch == '\r' then
    .ok { st with indent := true, nT := 0 }
  else .ok st

/-- Main loop of Lexer::tokenizeInputFile, one fuel unit per getChar
iteration; the inner word/number loops consume extra characters through
takeWhileCh without extra fuel.  The accumulated token list is reversed
on return. -/
def lexLoop : Nat → LexSt → List Char → Except Fail (List Tok)
  | 0, _, _ => .error .fuel
  | _ + 1, st, [] =>
    -- after the while loop: bracket check, dedent drain, EndOfFile token
    if st.parStack.isEmpty then
      .ok ((Tok.eof st.line st.col :: (drainDedents st.line st.col st.indentStack ++ st.res)).reverse)
    else
      lexErr st.line st.col "Mismatched parenthesis or brackets"
  | fuel + 1, st, ch :: rest =>
    -- Lexer::getChar: update the line and column counters
    let line := if ch = '\n' then st.line + 1 else st.line
    let col := if ch = '\n' then 0 else st.col + 1
    -- leading spaces and tabs of a line increase the indentation counter
    if (ch == ' ' || ch == '\t') &&
       (st.res.isEmpty || (headIsNewline st.res && st.indent)) then
      lexLoop fuel { st with line := line, col := col,
                             nT := st.nT + (if ch == '\t' then 4 else 1) } rest
    else
      -- branches two and three of the indentation handling do not end the
      -- iteration: they update the state and fall through to scanning
      match indentHandle ch line col st with
      | .error f => .error f
      | .ok stI =>
        let st1 := { stI with line := line, col := col }
        -- identifier / reserved keyword / boolean operator / boolean literal
        if isLetterCh ch then
          let r := takeWhileCh isWordCh rest
          let col2 := col + r.1.length
          lexLoop fuel { st1 with col := col2,
                                  res := classifyWord (ch :: r.1) line col2 :: st1.res } r.2
        -- number starting with 1..9
        else if isDigit19 ch then
          let r := takeWhileCh isDigit09 rest
          let col2 := col + r.1.length
          lexLoop fuel { st1 with col := col2,
                                  res := .number (digitsToInt (ch :: r.1)) line col2 :: st1.res } r.2
        -- physical newline
        else if ch == '\n' || ch == '\r' then
          lexLoop fuel { st1 with indent := true, res := .newline line col :: st1.res } rest
        -- the single digit 0
        else if ch == '0' then
          match rest with
          | c2 :: rest2 =>
            if isDigit09 c2 then
              lexErr line col "Invalid integer value: leading zeros are not allowed"
            else
              lexLoop fuel { st1 with res := .number 0 line col :: st1.res } (c2 :: rest2)
          | [] => lexLoop fuel { st1 with res := .number 0 line col :: st1.res } []
        -- assignment or equality
        else if ch == '=' then
          match rest with
          | '=' :: rest2 =>
            lexLoop fuel { st1 with col := col + 1, res := .rel .EQ line (col + 1) :: st1.res } rest2
          | _ => lexLoop fuel { st1 with res := .assign line col :: st1.res } rest
        -- remaining relational operators
        else if ch == '!' && rest.head? = some '=' then
          lexLoop fuel { st1 with col := col + 1, res := .rel .NEQ line (col + 1) :: st1.res } rest.tail
        else if ch == '<' then
          match rest with
          | '=' :: rest2 =>
            lexLoop fuel { st1 with col := col + 1, res := .rel .LE line (col + 1) :: st1.res } rest2
          | _ => lexLoop fuel { st1 with res := .rel .LT line col :: st1.res } rest
        else if ch == '>' then
          match rest with
          | '=' :: rest2 =>
            lexLoop fuel { st1 with col := col + 1, res := .rel .GE line (col + 1) :: st1.res } rest2
          | _ => lexLoop fuel { st1 with res := .rel .GT line col :: st1.res } rest
        -- arithmetic operators
        else if ch == '+' then
          lexLoop fuel { st1 with res := .arith .ADD line col :: st1.res } rest
        else if ch == '-' then
          lexLoop fuel { st1 with res := .arith .SUB line col :: st1.res } rest
        else if ch == '*' then
          lexLoop fuel { st1 with res := .arith .MUL line col :: st1.res } rest
        else if ch == '/' then
          match rest with
          | '/' :: rest2 =>
            lexLoop fuel { st1 with col := col + 1, res := .arith .DIV line (col + 1) :: st1.res } rest2
          | _ => lexErr line col "Invalid character / (did you mean // for integer division?)"
        -- punctuation
        else if ch == ':' then
          lexLoop fuel { st1 with res := .punct .COL line col :: st1.res } rest
        else if ch == '.' then
          lexLoop fuel { st1 with res := .punct .PERIOD line col :: st1.res } rest
        -- parentheses: push 1 on the shared stack
        else if ch == '(' then
          lexLoop fuel { st1 with res := .punct .LPAR line col :: st1.res,
                                  parStack := 1 :: st1.parStack } rest
        else if ch == ')' then
          -- the token is pushed before the mismatch check;
          -- the guard tests emptiness before calling back()
          match st1.parStack with
          | [] => lexErr line col "Mismatched parenthesis"
          | top :: rest2 =>
            if top == 0 then lexErr line col "Mismatched parenthesis"
            else lexLoop fuel { st1 with res := .punct .RPAR line col :: st1.res,
                                         parStack := rest2 } rest
        -- brackets: push 0 on the shared stack
        else if ch == '[' then
          lexLoop fuel { st1 with res := .punct .LBRACK line col :: st1.res,
                                  parStack := 0 :: st1.parStack } rest
        else if ch == ']' then
          -- the guard (parStack_.back() == 1) || (parStack_.empty())
          -- calls back() first: on an empty stack that access has no
          -- defined value, modelled as the stuck outcome
          match st1.parStack with
          | [] => .error .stuck
          | top :: rest2 =>
            if top == 1 then lexErr line col "Mismatched brackets"
            else lexLoop fuel { st1 with res := .punct .RBRACK line col :: st1.res,
                                         parStack := rest2 } rest
        -- anything else: spaces are skipped, every other character is invalid
        else if ch == ' ' then
          lexLoop fuel st1 rest
        else
          lexErr line col "Invalid character"

/-- Lexer entry point: tokenize a whole source string.  The fuel bound
length+1 covers every getChar iteration plus the final end-of-input
step, since each iteration consumes at least one character. -/
def lexFile (s : String) : Except Fail (List Tok) :=
  lexLoop (s.data.length + 1) initLexSt s.data

/-! Syntax tree (syntax.h / syntax.cpp).  The seven-level expression
class hierarchy of the source is represented by one inductive whose
constructors are the concrete node classes; every node stores the
line/column of the token at its construction position (index - 1),
exactly as Statement::getLine/getColumn read them. -/

/-- Expression nodes: OrExpr, AndExpr, EqualExpr, ComparativeRelation,
AritExpr, MulDivTerm, NotUnary, MinusUnary, ExpressionFactor,
NumberFactor, BoolFactor, IdLocation and ListElementLocation used as a
factor. -/
inductive Expr
  | orE (l r : Expr) (line col : Nat)
  | andE (l r : Expr) (line col : Nat)
  | eqE (op : RelTag) (l r : Expr) (line col : Nat)
  | cmpE (op : RelTag) (l r : Expr) (line col : Nat)
  | addE (op : ArithTag) (l r : Expr) (line col : Nat)
  | mulE (op : ArithTag) (l r : Expr) (line col : Nat)
  | notE (u : Expr) (line col : Nat)
  | negE (u : Expr) (line col : Nat)
  | parenE (e : Expr) (line col : Nat)
  | numE (v : Int) (line col : Nat)
  | boolE (v : Bool) (line col : Nat)
  | idE (v : String) (line col : Nat)
  | elemE (v : String) (idx : Expr) (line col : Nat)
deriving Repr

/-- Line of an expression node (Expression::getLine). -/
def Expr.lin : Expr → Nat
  | .orE _ _ l _ => l | .andE _ _ l _ => l | .eqE _ _ _ l _ => l
  | .cmpE _ _ _ l _ => l | .addE _ _ _ l _ => l | .mulE _ _ _ l _ => l
  | .notE _ l _ => l | .negE _ l _ => l | .parenE _ l _ => l
  | .numE _ l _ => l | .boolE _ l _ => l | .idE _ l _ => l
  | .elemE _ _ l _ => l

/-- Column of an expression node (Expression::getColumn). -/
def Expr.colm : Expr → Nat
  | .orE _ _ _ c => c | .andE _ _ _ c => c | .eqE _ _ _ _ c => c
  | .cmpE _ _ _ _ c => c | .addE _ _ _ _ c => c | .mulE _ _ _ _ c => c
  | .notE _ _ c => c | .negE _ _ c => c | .parenE _ _ c => c
  | .numE _ _ c => c | .boolE _ _ c => c | .idE _ _ c => c
  | .elemE _ _ _ c => c

/-- Assignment targets: IdLocation and ListElementLocation. -/
inductive Loc
  | idL (v : String) (line col : Nat)
  | elemL (v : String) (idx : Expr) (line col : Nat)
deriving Repr

mutual
/-- Statement nodes of syntax.h. -/
inductive Stmt
  | assign (loc : Loc) (e : Expr) (line col : Nat)
  | listDecl (idv : String) (line col : Nat)
  | listApp (idv : String) (e : Expr) (line col : Nat)
  | brk (line col : Nat)
  | cont (line col : Nat)
  | print (e : Expr) (line col : Nat)
  | ifS (cond : Expr) (blocks : List Blk) (line col : Nat)
  | whileS (cond : Expr) (blocks : List Blk) (line col : Nat)
deriving Repr

/-- Block nodes: SimpleBlock, ElifBlock (condition plus the statements
of its SimpleBlock), ElseBlock. -/
inductive Blk
  | simpleB (stmts : List Stmt) (line col : Nat)
  | elifB (cond : Expr) (body : List Stmt) (line col : Nat)
  | elseB (body : List Stmt) (line col : Nat)
deriving Repr
end

/-! Parser (parser.cpp).  Each parse function of the Parser class is a
constructor of PTask; parseCore consumes one fuel unit per call, so the
whole mutually recursive family is one structurally recursive function.
The parser state is the current token index (Parser::index_). -/

/-- Result of a parse function: the node kind it returns. -/
inductive PRes
  | ex (e : Expr)
  | loc (l : Loc)
  | stO (s : Option Stmt)
  | blk (b : Blk)
  | blks (bs : List Blk)
  | stmts (l : List Stmt)
deriving Repr

/-- One constructor per parse function of parser.cpp; accumulator
arguments model its in-function while loops. -/
inductive PTask
  | progLoop (acc : List Stmt)
  | statement
  | assignStmt
  | listDeclStmt
  | listAppStmt
  | breakStmt
  | continueStmt
  | printStmt
  | compoundStmt
  | blockP
  | blockLoop (acc : List Stmt)
  | elifBlockP
  | elseBlockP
  | elifLoop (acc : List Blk)
  | expression
  | orExprP (left : Expr)
  | joinP
  | andExprP (left : Expr)
  | equalityP
  | equalExprP (left : Expr)
  | relationP
  | compRelP (left : Expr)
  | numExprP
  | aritExprP (left : Expr)
  | termP
  | mulDivP (left : Expr)
  | unaryP
  | notUnaryP
  | minusUnaryP
  | factorP
  | exprFactorP
  | numberFactorP
  | boolFactorP
  | locationP
  | listElemLocP (idv : String)
deriving Repr

/-- Token kind and payload test (getType plus getIntValue, guarded). -/
def isKw (t : Tok) (k : KwTag) : Bool :=
  match t with | .keyword k2 _ _ => k2 == k | _ => false

/-- Token test for a boolean operator token with the given tag. -/
def isBoolOpOf (t : Tok) (op : BoolOpTag) : Bool :=
  match t with | .boolop o _ _ => o == op | _ => false

/-- Token test for a punctuation token with the given tag. -/
def isPunctOf (t : Tok) (p : PunctTag) : Bool :=
  match t with | .punct q _ _ => q == p | _ => false

/-- Token test for an assignment token. -/
def isAssignTok (t : Tok) : Bool :=
  match t with | .assign _ _ => true | _ => false

/-- Token test for an identifier token. -/
def isIdTok (t : Tok) : Bool :=
  match t with | .id _ _ _ => true | _ => false

/-- Token test for a newline token. -/
def isNewlineTok (t : Tok) : Bool :=
  match t with | .newline _ _ => true | _ => false

/-- Token test for the EndOfFile token. -/
def isEofTok (t : Tok) : Bool :=
  match t with | .eof _ _ => true | _ => false

/-- Token test for an indentation token with the given direction. -/
def isIndentTokOf (t : Tok) (b : Bool) : Bool :=
  match t with | .indentation b2 _ _ => b2 == b | _ => false

/-- Token test for an arithmetic token with the given tag. -/
def isArithOf (t : Tok) (a : ArithTag) : Bool :=
  match t with | .arith o _ _ => o == a | _ => false

/-- Token test of parseEquality: a relational token that is == or !=. -/
def isRelOfTwo (t : Tok) : Bool :=
  match t with | .rel o _ _ => o == .EQ || o == .NEQ | _ => false

/-- Token test of parseRelation: one of the four comparisons. -/
def isRelOfFour (t : Tok) : Bool :=
  match t with | .rel o _ _ => o == .LE || o == .GT || o == .GE || o == .LT | _ => false

/-- Token test of parseNumExpr: an additive operator. -/
def isArithOfAddSub (t : Tok) : Bool :=
  match t with | .arith o _ _ => o == .ADD || o == .SUB | _ => false

/-- Token test of parseTerm: a multiplicative operator. -/
def isArithOfMulDiv (t : Tok) : Bool :=
  match t with | .arith o _ _ => o == .MUL || o == .DIV | _ => false

/-- Position of the token at an index, used for node construction at
index - 1 (always in bounds when reached). -/
def posAt (toks : List Tok) (i : Nat) : Nat × Nat :=
  match toks.get? i with
  | some t => (t.lin, t.colm)
  | none => (0, 0)

/-- Extract an expression result. -/
def exEx (r : Except Fail (PRes × Nat)) : Except Fail (Expr × Nat) :=
  match r with
  | .ok (.ex e, i) => .ok (e, i)
  | .ok _ => .error .stuck
  | .error f => .error f

/-- Extract a location result. -/
def exLoc (r : Except Fail (PRes × Nat)) : Except Fail (Loc × Nat) :=
  match r with
  | .ok (.loc l, i) => .ok (l, i)
  | .ok _ => .error .stuck
  | .error f => .error f

/-- Extract a nullable statement result. -/
def exStmtO (r : Except Fail (PRes × Nat)) : Except Fail (Option Stmt × Nat) :=
  match r with
  | .ok (.stO s, i) => .ok (s, i)
  | .ok _ => .error .stuck
  | .error f => .error f

/-- Extract a block result. -/
def exBlk (r : Except Fail (PRes × Nat)) : Except Fail (Blk × Nat) :=
  match r with
  | .ok (.blk b, i) => .ok (b, i)
  | .ok _ => .error .stuck
  | .error f => .error f

/-- Extract a block list result. -/
def exBlks (r : Except Fail (PRes × Nat)) : Except Fail (List Blk × Nat) :=
  match r with
  | .ok (.blks bs, i) => .ok (bs, i)
  | .ok _ => .error .stuck
  | .error f => .error f

/-- Extract a statement list result. -/
def exStmts (r : Except Fail (PRes × Nat)) : Except Fail (List Stmt × Nat) :=
  match r with
  | .ok (.stmts l, i) => .ok (l, i)
  | .ok _ => .error .stuck
  | .error f => .error f

/-- The IdLocation / ListElementLocation returned by parseLocation used
as a Factor (FactorType::LOCATION). -/
def locToExpr : Loc → Expr
  | .idL v l c => .idE v l c
  | .elemL v ix l c => .elemE v ix l c

/-- The Parser class: every case mirrors the function of parser.cpp
named in its comment.  Dead try/catch blocks for TypeError (nothing in
the parser throws TypeError) and null checks on results that are never
null are omitted. -/
def parseCore : Nat → List Tok → PTask → Nat → Except Fail (PRes × Nat)
  | 0, _, _, _ => .error .fuel
  | fuel + 1, toks, task, i =>
    match task with
    -- Parser::parseProgram main loop
    | .progLoop acc =>
      if i < toks.length then
        match exStmtO (parseCore fuel toks .statement i) with
        | .error f => .error f
        | .ok (some s, i1) => parseCore fuel toks (.progLoop (s :: acc)) i1
        | .ok (none, i1) =>
          match toks.get? i1 with
          | none => .error .stuck
          | some t =>
            if isEofTok t then .ok (.stmts acc.reverse, i1)
            else parseCore fuel toks (.progLoop acc) (i1 + 1)
      else .ok (.stmts acc.reverse, i)
    -- Parser::parseStatement
    | .statement =>
      match toks.get? i with
      | none => .error .stuck
      | some t =>
        if isKw t .PRINT then parseCore fuel toks .printStmt i
        else if isKw t .BREAK then parseCore fuel toks .breakStmt i
        else if isKw t .CONTINUE then parseCore fuel toks .continueStmt i
        else if isIdTok t then
          match toks.get? (i + 1) with
          | none => .error .stuck
          | some t1 =>
            if isPunctOf t1 .PERIOD then
              match toks.get? (i + 2) with
              | none => .error .stuck
              | some t2 =>
                if isKw t2 .APPEND then parseCore fuel toks .listAppStmt i
                else parseCore fuel toks .assignStmt i
            else if isAssignTok t1 then
              match toks.get? (i + 2) with
              | none => .error .stuck
              | some t2 =>
                if isKw t2 .LIST then parseCore fuel toks .listDeclStmt i
                else parseCore fuel toks .assignStmt i
            else parseCore fuel toks .assignStmt i
        else if isKw t .IF then parseCore fuel toks .compoundStmt i
        else if isKw t .WHILE then parseCore fuel toks .compoundStmt i
        else .ok (.stO none, i)
    -- Parser::parseAssignmentStatement
    | .assignStmt =>
      match exLoc (parseCore fuel toks .locationP i) with
      | .error f => .error f
      | .ok (loc, i1) =>
        match toks.get? i1 with
        | none => .error .stuck
        | some t1 =>
          if !(isAssignTok t1) then
            synErr t1.lin t1.colm "Expected = in assignment statement"
          else
            match exEx (parseCore fuel toks .expression (i1 + 1)) with
            | .error f => .error f
            | .ok (e, i2) =>
              match toks.get? i2 with
              | none => .error .stuck
              | some t2 =>
                if !(isNewlineTok t2) && !(isEofTok t2) then
                  synErr t2.lin t2.colm "Expected newline at the end of assignment statement"
                else
                  let p := posAt toks i2
                  .ok (.stO (some (.assign loc e p.1 p.2)), i2 + 1)
    -- Parser::parseListDeclarationStatement
    | .listDeclStmt =>
      match toks.get? i with
      | none => .error .stuck
      | some t =>
        match t with
        | .id name _ _ =>
          match toks.get? (i + 1) with
          | none => .error .stuck
          | some t1 =>
            if !(isAssignTok t1) then
              synErr t1.lin t1.colm "Expected = in list declaration statement"
            else
              match toks.get? (i + 2) with
              | none => .error .stuck
              | some t2 =>
                if !(isKw t2 .LIST) then
                  synErr t2.lin t2.colm "Expected list in list declaration statement"
                else
                  match toks.get? (i + 3) with
                  | none => .error .stuck
                  | some t3 =>
                    if !(isPunctOf t3 .LPAR) then
                      synErr t3.lin t3.colm "Expected ( in list declaration statement"
                    else
                      match toks.get? (i + 4) with
                      | none => .error .stuck
                      | some t4 =>
                        if !(isPunctOf t4 .RPAR) then
                          synErr t4.lin t4.colm "Expected ) in list declaration statement"
                        else
                          match toks.get? (i + 5) with
                          | none => .error .stuck
                          | some t5 =>
                            if !(isNewlineTok t5) && !(isEofTok t5) then
                              synErr t5.lin t5.colm "Expected newline at the end of list declaration statement"
                            else
                              let p := posAt toks (i + 5)
                              .ok (.stO (some (.listDecl name p.1 p.2)), i + 6)
        | _ => synErr t.lin t.colm "Expected identifier in list declaration statement"
    -- Parser::parseListAppendStatement
    | .listAppStmt =>
      match toks.get? i with
      | none => .error .stuck
      | some t =>
        match t with
        | .id name _ _ =>
          match toks.get? (i + 1) with
          | none => .error .stuck
          | some t1 =>
            if !(isPunctOf t1 .PERIOD) then
              synErr t1.lin t1.colm "Expected . in list append statement"
            else
              match toks.get? (i + 2) with
              | none => .error .stuck
              | some t2 =>
                if !(isKw t2 .APPEND) then
                  synErr t2.lin t2.colm "Expected append in list append statement"
                else
                  match toks.get? (i + 3) with
                  | none => .error .stuck
                  | some t3 =>
                    if !(isPunctOf t3 .LPAR) then
                      synErr t3.lin t3.colm "Expected ( in list append statement"
                    else
                      match exEx (parseCore fuel toks .expression (i + 4)) with
                      | .error f => .error f
                      | .ok (e, i4) =>
                        match toks.get? i4 with
                        | none => .error .stuck
                        | some t4 =>
                          if !(isPunctOf t4 .RPAR) then
                            synErr t4.lin t4.colm "Expected ) in list append statement"
                          else
                            match toks.get? (i4 + 1) with
                            | none => .error .stuck
                            | some t5 =>
                              if !(isNewlineTok t5) && !(isEofTok t5) then
                                synErr t5.lin t5.colm "Expected newline at the end of list append statement"
                              else
                                let p := posAt toks (i4 + 1)
                                .ok (.stO (some (.listApp name e p.1 p.2)), i4 + 2)
        | _ => synErr t.lin t.colm "Expected identifier in list append statement"
    -- Parser::parseBreakStatement
    | .breakStmt =>
      match toks.get? i with
      | none => .error .stuck
      | some t =>
        if !(isKw t .BREAK) then synErr t.lin t.colm "Expected break in break statement"
        else
          match toks.get? (i + 1) with
          | none => .error .stuck
          | some t1 =>
            if !(isNewlineTok t1) && !(isEofTok t1) then
              synErr t1.lin t1.colm "Expected newline at the end of break statement"
            else
              let p := posAt toks (i + 1)
              .ok (.stO (some (.brk p.1 p.2)), i + 2)
    -- Parser::parseContinueStatement
    | .continueStmt =>
      match toks.get? i with
      | none => .error .stuck
      | some t =>
        if !(isKw t .CONTINUE) then synErr t.lin t.colm "Expected continue in continue statement"
        else
          match toks.get? (i + 1) with
          | none => .error .stuck
          | some t1 =>
            if !(isNewlineTok t1) && !(isEofTok t1) then
              synErr t1.lin t1.colm "Expected newline at the end of continue statement"
            else
              let p := posAt toks (i + 1)
              .ok (.stO (some (.cont p.1 p.2)), i + 2)
    -- Parser::parsePrintStatement
    | .printStmt =>
      match toks.get? i with
      | none => .error .stuck
      | some t =>
        if !(isKw t .PRINT) then synErr t.lin t.colm "Expected print in print statement"
        else
          match toks.get? (i + 1) with
          | none => .error .stuck
          | some t1 =>
            if !(isPunctOf t1 .LPAR) then synErr t1.lin t1.colm "Expected ( in print statement"
            else
              match exEx (parseCore fuel toks .expression (i + 2)) with
              | .error f => .error f
              | .ok (e, i2) =>
                match toks.get? i2 with
                | none => .error .stuck
                | some t2 =>
                  if !(isPunctOf t2 .RPAR) then synErr t2.lin t2.colm "Expected ) in print statement"
                  else
                    match toks.get? (i2 + 1) with
                    | none => .error .stuck
                    | some t3 =>
                      if !(isNewlineTok t3) && !(isEofTok t3) then
                        synErr t3.lin t3.colm "Expected newline at the end of print statement"
                      else
                        let p := posAt toks (i2 + 1)
                        .ok (.stO (some (.print e p.1 p.2)), i2 + 2)
    -- Parser::parseCompoundStatement
    | .compoundStmt =>
      match toks.get? i with
      | none => .error .stuck
      | some t =>
        if !(isKw t .IF) && !(isKw t .WHILE) then
          synErr t.lin t.colm "Expected if or while in compound statement"
        else
          match exEx (parseCore fuel toks .expression (i + 1)) with
          | .error f => .error f
          | .ok (cond, i1) =>
            match toks.get? i1 with
            | none => .error .stuck
            | some t1 =>
              if !(isPunctOf t1 .COL) then
                synErr t1.lin t1.colm "Expected : in compound statement"
              else
                match exBlk (parseCore fuel toks .blockP (i1 + 1)) with
                | .error f => .error f
                | .ok (b, i2) =>
                  if isKw t .IF then
                    match exBlks (parseCore fuel toks (.elifLoop []) i2) with
                    | .error f => .error f
                    | .ok (ebs, i3) =>
                      match toks.get? i3 with
                      | none => .error .stuck
                      | some t3 =>
                        if isKw t3 .ELSE then
                          match exBlk (parseCore fuel toks .elseBlockP i3) with
                          | .error f => .error f
                          | .ok (eb, i4) =>
                            let p := posAt toks (i4 - 1)
                            .ok (.stO (some (.ifS cond (b :: (ebs ++ [eb])) p.1 p.2)), i4)
                        else
                          let p := posAt toks (i3 - 1)
                          .ok (.stO (some (.ifS cond (b :: ebs) p.1 p.2)), i3)
                  else
                    let p := posAt toks (i2 - 1)
                    .ok (.stO (some (.whileS cond [b] p.1 p.2)), i2)
    -- Parser::parseBlock
    | .blockP =>
      match toks.get? i with
      | none => .error .stuck
      | some t =>
        if !(isNewlineTok t) then synErr t.lin t.colm "Expected newline in block"
        else
          match toks.get? (i + 1) with
          | none => .error .stuck
          | some t1 =>
            if !(isIndentTokOf t1 true) then
              indErr t1.lin t1.colm "Expected indentation in block"
            else
              match exStmts (parseCore fuel toks (.blockLoop []) (i + 2)) with
              | .error f => .error f
              | .ok (ss, i2) =>
                match toks.get? i2 with
                | none => .error .stuck
                | some t2 =>
                  if !(isIndentTokOf t2 false) then
                    synErr t2.lin t2.colm "Expected dedentation in block"
                  else
                    let p := posAt toks i2
                    .ok (.blk (.simpleB ss p.1 p.2), i2 + 1)
    -- the statement loop inside Parser::parseBlock
    | .blockLoop acc =>
      if i < toks.length then
        match toks.get? i with
        | none => .error .stuck
        | some t =>
          if isIndentTokOf t false then .ok (.stmts acc.reverse, i)
          else
            match exStmtO (parseCore fuel toks .statement i) with
            | .error f => .error f
            | .ok (some s, i1) => parseCore fuel toks (.blockLoop (s :: acc)) i1
            | .ok (none, i1) =>
              match toks.get? i1 with
              | none => .error .stuck
              | some t2 =>
                if isEofTok t2 then parseCore fuel toks (.blockLoop acc) i1
                else parseCore fuel toks (.blockLoop acc) (i1 + 1)
      else .ok (.stmts acc.reverse, i)
    -- Parser::parseElifBlock
    | .elifBlockP =>
      match toks.get? i with
      | none => .error .stuck
      | some t =>
        if !(isKw t .ELIF) then synErr t.lin t.colm "Expected elif in elif block"
        else
          match exEx (parseCore fuel toks .expression (i + 1)) with
          | .error f => .error f
          | .ok (cond, i1) =>
            match toks.get? i1 with
            | none => .error .stuck
            | some t1 =>
              if !(isPunctOf t1 .COL) then synErr t1.lin t1.colm "Expected : in elif block"
              else
                match exBlk (parseCore fuel toks .blockP (i1 + 1)) with
                | .error f => .error f
                | .ok (b, i2) =>
                  match b with
                  | .simpleB ss _ _ =>
                    let p := posAt toks (i2 - 1)
                    .ok (.blk (.elifB cond ss p.1 p.2), i2)
                  | _ => .error .stuck
    -- Parser::parseElseBlock
    | .elseBlockP =>
      match toks.get? i with
      | none => .error .stuck
      | some t =>
        if !(isKw t .ELSE) then synErr t.lin t.colm "Expected else in else block"
        else
          match toks.get? (i + 1) with
          | none => .error .stuck
          | some t1 =>
            if !(isPunctOf t1 .COL) then synErr t1.lin t1.colm "Expected : in else block"
            else
              match exBlk (parseCore fuel toks .blockP (i + 2)) with
              | .error f => .error f
              | .ok (b, i2) =>
                match b with
                | .simpleB ss _ _ =>
                  let p := posAt toks (i2 - 1)
                  .ok (.blk (.elseB ss p.1 p.2), i2)
                | _ => .error .stuck
    -- the elif loop inside Parser::parseCompoundStatement
    | .elifLoop acc =>
      match toks.get? i with
      | none => .error .stuck
      | some t =>
        if isKw t .ELIF then
          match exBlk (parseCore fuel toks .elifBlockP i) with
          | .error f => .error f
          | .ok (b, i1) => parseCore fuel toks (.elifLoop (b :: acc)) i1
        else .ok (.blks acc.reverse, i)
    -- Parser::parseExpression
    | .expression =>
      match exEx (parseCore fuel toks .joinP i) with
      | .error f => .error f
      | .ok (j, i1) =>
        match toks.get? i1 with
        | none => .error .stuck
        | some t =>
          if isBoolOpOf t .OR then parseCore fuel toks (.orExprP j) i1
          else .ok (.ex j, i1)
    -- Parser::parseOrExpr
    | .orExprP left =>
      match toks.get? i with
      | none => .error .stuck
      | some t =>
        if !(isBoolOpOf t .OR) then synErr t.lin t.colm "Expected or in or expression"
        else
          match exEx (parseCore fuel toks .expression (i + 1)) with
          | .error f => .error f
          | .ok (r, i2) =>
            let p := posAt toks (i2 - 1)
            .ok (.ex (.orE left r p.1 p.2), i2)
    -- Parser::parseJoin
    | .joinP =>
      match exEx (parseCore fuel toks .equalityP i) with
      | .error f => .error f
      | .ok (eq, i1) =>
        match toks.get? i1 with
        | none => .error .stuck
        | some t =>
          if isBoolOpOf t .AND then parseCore fuel toks (.andExprP eq) i1
          else .ok (.ex eq, i1)
    -- Parser::parseAndExpr: the index is incremented first (the comment
    -- in the source says this skips the left expression, it skips the
    -- and token); then the check throws when the NEXT token is another
    -- and; the commented-out second increment never happens; the right
    -- operand is parsed as an Equality, not as a Join
    | .andExprP left =>
      match toks.get? (i + 1) with
      | none => .error .stuck
      | some t =>
        if isBoolOpOf t .AND then synErr t.lin t.colm "Expected and in and expression"
        else
          match exEx (parseCore fuel toks .equalityP (i + 1)) with
          | .error f => .error f
          | .ok (r, i2) =>
            let p := posAt toks (i2 - 1)
            .ok (.ex (.andE left r p.1 p.2), i2)
    -- Parser::parseEquality
    | .equalityP =>
      match exEx (parseCore fuel toks .relationP i) with
      | .error f => .error f
      | .ok (rel, i1) =>
        match toks.get? i1 with
        | none => .error .stuck
        | some t =>
          if isRelOfTwo t then parseCore fuel toks (.equalExprP rel) i1
          else .ok (.ex rel, i1)
    -- Parser::parseEqualExpr
    | .equalExprP left =>
      match toks.get? i with
      | none => .error .stuck
      | some t =>
        match t with
        | .rel op _ _ =>
          if !(op == .EQ) && !(op == .NEQ) then
            synErr t.lin t.colm "Expected == or != in equality expression"
          else
            match exEx (parseCore fuel toks .relationP (i + 1)) with
            | .error f => .error f
            | .ok (r, i2) =>
              let p := posAt toks (i2 - 1)
              .ok (.ex (.eqE op left r p.1 p.2), i2)
        | _ => synErr t.lin t.colm "Expected == or != in equality expression"
    -- Parser::parseRelation
    | .relationP =>
      match exEx (parseCore fuel toks .numExprP i) with
      | .error f => .error f
      | .ok (ne, i1) =>
        match toks.get? i1 with
        | none => .error .stuck
        | some t =>
          if isRelOfFour t then parseCore fuel toks (.compRelP ne) i1
          else .ok (.ex ne, i1)
    -- Parser::parseComparativeRelation
    | .compRelP left =>
      match toks.get? i with
      | none => .error .stuck
      | some t =>
        match t with
        | .rel op _ _ =>
          if !(op == .LT) && !(op == .LE) && !(op == .GT) && !(op == .GE) then
            synErr t.lin t.colm "Expected comparison operator in comparative relation"
          else
            match exEx (parseCore fuel toks .numExprP (i + 1)) with
            | .error f => .error f
            | .ok (r, i2) =>
              let p := posAt toks (i2 - 1)
              .ok (.ex (.cmpE op left r p.1 p.2), i2)
        | _ => synErr t.lin t.colm "Expected comparison operator in comparative relation"
    -- Parser::parseNumExpr
    | .numExprP =>
      match exEx (parseCore fuel toks .termP i) with
      | .error f => .error f
      | .ok (tm, i1) =>
        match toks.get? i1 with
        | none => .error .stuck
        | some t =>
          if isArithOfAddSub t then parseCore fuel toks (.aritExprP tm) i1
          else .ok (.ex tm, i1)
    -- Parser::parseAritExpr: the right operand is a Term, and there is
    -- no loop, so additive chains of three or more operands are not
    -- consumed here
    | .aritExprP left =>
      match toks.get? i with
      | none => .error .stuck
      | some t =>
        match t with
        | .arith op _ _ =>
          if !(op == .ADD) && !(op == .SUB) then
            synErr t.lin t.colm "Expected + or - in arithmetic expression"
          else
            match exEx (parseCore fuel toks .termP (i + 1)) with
            | .error f => .error f
            | .ok (r, i2) =>
              let p := posAt toks (i2 - 1)
              .ok (.ex (.addE op left r p.1 p.2), i2)
        | _ => synErr t.lin t.colm "Expected + or - in arithmetic expression"
    -- Parser::parseTerm
    | .termP =>
      match exEx (parseCore fuel toks .unaryP i) with
      | .error f => .error f
      | .ok (u, i1) =>
        match toks.get? i1 with
        | none => .error .stuck
        | some t =>
          if isArithOfMulDiv t then parseCore fuel toks (.mulDivP u) i1
          else .ok (.ex u, i1)
    -- Parser::parseMulDivTerm: the right operand recurses into parseTerm
    | .mulDivP left =>
      match toks.get? i with
      | none => .error .stuck
      | some t =>
        match t with
        | .arith op _ _ =>
          if !(op == .MUL) && !(op == .DIV) then
            synErr t.lin t.colm "Expected * or / in multiplication or division expression"
          else
            match exEx (parseCore fuel toks .termP (i + 1)) with
            | .error f => .error f
            | .ok (r, i2) =>
              let p := posAt toks (i2 - 1)
              .ok (.ex (.mulE op left r p.1 p.2), i2)
        | _ => synErr t.lin t.colm "Expected * or / in multiplication or division expression"
    -- Parser::parseUnary
    | .unaryP =>
      match toks.get? i with
      | none => .error .stuck
      | some t =>
        if isBoolOpOf t .NOT then parseCore fuel toks .notUnaryP i
        else if isArithOf t .SUB then parseCore fuel toks .minusUnaryP i
        else parseCore fuel toks .factorP i
    -- Parser::parseNotUnary
    | .notUnaryP =>
      match toks.get? i with
      | none => .error .stuck
      | some t =>
        if !(isBoolOpOf t .NOT) then synErr t.lin t.colm "Expected not in not unary expression"
        else
          match exEx (parseCore fuel toks .unaryP (i + 1)) with
          | .error f => .error f
          | .ok (u, i2) =>
            let p := posAt toks (i2 - 1)
            .ok (.ex (.notE u p.1 p.2), i2)
    -- Parser::parseMinusUnary
    | .minusUnaryP =>
      match toks.get? i with
      | none => .error .stuck
      | some t =>
        if !(isArithOf t .SUB) then synErr t.lin t.colm "Expected - in minus unary expression"
        else
          match exEx (parseCore fuel toks .unaryP (i + 1)) with
          | .error f => .error f
          | .ok (u, i2) =>
            let p := posAt toks (i2 - 1)
            .ok (.ex (.negE u p.1 p.2), i2)
    -- Parser::parseFactor
    | .factorP =>
      match toks.get? i with
      | none => .error .stuck
      | some t =>
        if isPunctOf t .LPAR then parseCore fuel toks .exprFactorP i
        else
          match t with
          | .number _ _ _ => parseCore fuel toks .numberFactorP i
          | .bool _ _ _ => parseCore fuel toks .boolFactorP i
          | .id _ _ _ =>
            match exLoc (parseCore fuel toks .locationP i) with
            | .error f => .error f
            | .ok (l, i1) => .ok (.ex (locToExpr l), i1)
          | _ => synErr t.lin t.colm "Expected factor"
    -- Parser::parseExpressionFactor
    | .exprFactorP =>
      match toks.get? i with
      | none => .error .stuck
      | some t =>
        if !(isPunctOf t .LPAR) then synErr t.lin t.colm "Expected ( in expression factor"
        else
          match exEx (parseCore fuel toks .expression (i + 1)) with
          | .error f => .error f
          | .ok (e, i2) =>
            match toks.get? i2 with
            | none => .error .stuck
            | some t2 =>
              if !(isPunctOf t2 .RPAR) then synErr t2.lin t2.colm "Expected ) in expression factor"
              else
                let p := posAt toks i2
                .ok (.ex (.parenE e p.1 p.2), i2 + 1)
    -- Parser::parseNumberFactor
    | .numberFactorP =>
      match toks.get? i with
      | none => .error .stuck
      | some t =>
        match t with
        | .number v _ _ =>
          let p := posAt toks i
          .ok (.ex (.numE v p.1 p.2), i + 1)
        | _ => synErr t.lin t.colm "Expected number in number factor"
    -- Parser::parseBoolFactor
    | .boolFactorP =>
      match toks.get? i with
      | none => .error .stuck
      | some t =>
        match t with
        | .bool v _ _ =>
          let p := posAt toks i
          .ok (.ex (.boolE v p.1 p.2), i + 1)
        | _ => synErr t.lin t.colm "Expected boolean in boolean factor"
    -- Parser::parseLocation
    | .locationP =>
      match toks.get? i with
      | none => .error .stuck
      | some t =>
        match t with
        | .id name _ _ =>
          match toks.get? (i + 1) with
          | none => .error .stuck
          | some t1 =>
            if isPunctOf t1 .LBRACK then parseCore fuel toks (.listElemLocP name) (i + 1)
            else
              let p := posAt toks i
              .ok (.loc (.idL name p.1 p.2), i + 1)
        | _ => synErr t.lin t.colm "Expected identifier in location"
    -- Parser::parseListElementLocation
    | .listElemLocP name =>
      match toks.get? i with
      | none => .error .stuck
      | some t =>
        if !(isPunctOf t .LBRACK) then synErr t.lin t.colm "Expected [ in list element location"
        else
          match exEx (parseCore fuel toks .expression (i + 1)) with
          | .error f => .error f
          | .ok (e, i2) =>
            match toks.get? i2 with
            | none => .error .stuck
            | some t2 =>
              if !(isPunctOf t2 .RBRACK) then synErr t2.lin t2.colm "Expected ] in list element location"
              else
                let p := posAt toks i2
                .ok (.loc (.elemL name e p.1 p.2), i2 + 1)

/-- Parser entry point (Parser::parseProgram): run the main loop from
index 0 and return the statement list of the Program node. -/
def parseProg (fuel : Nat) (toks : List Tok) : Except Fail (List Stmt) :=
  match parseCore fuel toks (.progLoop []) 0 with
  | .ok (.stmts l, _) => .ok l
  | .ok _ => .error .stuck
  | .error f => .error f

/-! Semantics (semantics.h / semantics.cpp / visitor.cpp). -/

/-- Types enum of types.h. -/
inductive Types
  | TYPE_BOOL | TYPE_INT | TYPE_UNDEFINED
deriving Repr, DecidableEq

/-- EvaluatedElement: its two constructors set the type tag to int or
bool, so it is a tagged value. -/
inductive Value
  | i (v : Int)
  | b (v : Bool)
deriving Repr, DecidableEq

/-- EvaluatedElement::getType. -/
def Value.ty : Value → Types
  | .i _ => .TYPE_INT
  | .b _ => .TYPE_BOOL

/-- EvaluatedElement::getIntValue: InternalError on a non-int element. -/
def getIntValueE : Value → Except Fail Int
  | .i v => .ok v
  | .b _ => intErr 0 0 "Attempt to get int value from non-int EvaluatedElement"

/-- EvaluatedElement::getBoolValue: InternalError on a non-bool element. -/
def getBoolValueE : Value → Except Fail Bool
  | .b v => .ok v
  | .i _ => intErr 0 0 "Attempt to get bool value from non-bool EvaluatedElement"

/-- Lookup in an association list modelling std::map::find. -/
def lookupA {α : Type} : List (String × α) → String → Option α
  | [], _ => none
  | (k, v) :: rest, key => if k = key then some v else lookupA rest key

/-- Insert or replace modelling std::map::operator[] assignment. -/
def insertA {α : Type} : List (String × α) → String → α → List (String × α)
  | [], key, v => [(key, v)]
  | (k, w) :: rest, key, v =>
    if k = key then (k, v) :: rest else (k, w) :: insertA rest key v

/-- Erase modelling std::map::erase of a key. -/
def eraseA {α : Type} : List (String × α) → String → List (String × α)
  | [], _ => []
  | (k, w) :: rest, key => if k = key then rest else (k, w) :: eraseA rest key

/-- SymbolTable (semantics.h): int variables, bool variables and lists
live in three separate maps. -/
structure SymTab where
  intVars : List (String × Int)
  boolVars : List (String × Bool)
  lists : List (String × List Value)
deriving Repr, DecidableEq

/-- SymbolTable::isVariableDefined. -/
def SymTab.isVariableDefined (st : SymTab) (idv : String) : Bool :=
  (lookupA st.intVars idv).isSome || (lookupA st.boolVars idv).isSome

/-- SymbolTable::addVariable (int overload). -/
def SymTab.addVariableInt (st : SymTab) (idv : String) (v : Int) : Except Fail SymTab :=
  if st.isVariableDefined idv then intErr 0 0 "Variable is already defined"
  else .ok { st with intVars := insertA st.intVars idv v }

/-- SymbolTable::addVariable (bool overload). -/
def SymTab.addVariableBool (st : SymTab) (idv : String) (v : Bool) : Except Fail SymTab :=
  if st.isVariableDefined idv then intErr 0 0 "Variable is already defined"
  else .ok { st with boolVars := insertA st.boolVars idv v }

/-- SymbolTable::updateVariable (int overload): an int slot is updated
in place, a bool slot is deleted and re-created as int. -/
def SymTab.updateVariableInt (st : SymTab) (idv : String) (v : Int) : Except Fail SymTab :=
  if (lookupA st.intVars idv).isSome then
    .ok { st with intVars := insertA st.intVars idv v }
  else if (lookupA st.boolVars idv).isSome then
    .ok { st with boolVars := eraseA st.boolVars idv, intVars := insertA st.intVars idv v }
  else intErr 0 0 "Variable is not defined"

/-- SymbolTable::updateVariable (bool overload). -/
def SymTab.updateVariableBool (st : SymTab) (idv : String) (v : Bool) : Except Fail SymTab :=
  if (lookupA st.boolVars idv).isSome then
    .ok { st with boolVars := insertA st.boolVars idv v }
  else if (lookupA st.intVars idv).isSome then
    .ok { st with intVars := eraseA st.intVars idv, boolVars := insertA st.boolVars idv v }
  else intErr 0 0 "Variable is not defined"

/-- SymbolTable::getVariableValue: int map first, then bool map. -/
def SymTab.getVariableValue (st : SymTab) (idv : String) : Except Fail Value :=
  match lookupA st.intVars idv with
  | some v => .ok (.i v)
  | none =>
    match lookupA st.boolVars idv with
    | some v => .ok (.b v)
    | none => intErr 0 0 "Variable is not defined"

/-- SymbolTable::isListDefined. -/
def SymTab.isListDefined (st : SymTab) (idv : String) : Bool :=
  (lookupA st.lists idv).isSome

/-- SymbolTable::addList: a no-op when the list exists, otherwise an
empty list is bound. -/
def SymTab.addList (st : SymTab) (idv : String) : SymTab :=
  if st.isListDefined idv then st
  else { st with lists := insertA st.lists idv [] }

/-- SymbolTable::appendToList. -/
def SymTab.appendToList (st : SymTab) (idv : String) (v : Value) : Except Fail SymTab :=
  match lookupA st.lists idv with
  | none => intErr 0 0 "List is not defined"
  | some xs => .ok { st with lists := insertA st.lists idv (xs ++ [v]) }

/-- SymbolTable::updateListElement: bounds violations raise
InternalError. -/
def SymTab.updateListElement (st : SymTab) (idv : String) (index : Int) (v : Value) :
    Except Fail SymTab :=
  match lookupA st.lists idv with
  | none => intErr 0 0 "List is not defined"
  | some xs =>
    if index < 0 ∨ (xs.length : Int) ≤ index then intErr 0 0 "List index out of range"
    else .ok { st with lists := insertA st.lists idv (xs.set index.toNat v) }

/-- SymbolTable::getListElement: bounds violations raise InternalError. -/
def SymTab.getListElement (st : SymTab) (idv : String) (index : Int) : Except Fail Value :=
  match lookupA st.lists idv with
  | none => intErr 0 0 "List is not defined"
  | some xs =>
    if index < 0 ∨ (xs.length : Int) ≤ index then intErr 0 0 "List index out of range"
    else .ok (xs.getD index.toNat (.i 0))

/-- SymbolTable::getListSize. -/
def SymTab.getListSize (st : SymTab) (idv : String) : Except Fail Int :=
  match lookupA st.lists idv with
  | none => intErr 0 0 "List is not defined"
  | some xs => .ok (xs.length : Int)

/-- SymbolTable::clear: delete a list binding. -/
def SymTab.clearList (st : SymTab) (idv : String) : Except Fail SymTab :=
  if st.isListDefined idv then .ok { st with lists := eraseA st.lists idv }
  else intErr 0 0 "List is not defined"

/-- Visitor::isAlreadyDefined. -/
def isAlreadyDefined (st : SymTab) (idv : String) : Bool :=
  st.isVariableDefined idv || st.isListDefined idv

/-- Visitor::addVariable: dispatch on the dynamic type of the element. -/
def addVariableV (st : SymTab) (idv : String) (v : Value) : Except Fail SymTab :=
  match v with
  | .i n => st.addVariableInt idv n
  | .b bv => st.addVariableBool idv bv

/-- Visitor::updateVariable: dispatch on the dynamic type. -/
def updateVariableV (st : SymTab) (idv : String) (v : Value) : Except Fail SymTab :=
  match v with
  | .i n => st.updateVariableInt idv n
  | .b bv => st.updateVariableBool idv bv

/-- Visitor::getVariableValue: InternalError when undefined, then the
SymbolTable lookup. -/
def getVariableValueV (st : SymTab) (idv : String) (line col : Nat) : Except Fail Value :=
  if !(st.isVariableDefined idv) then intErr line col "Variable is not defined"
  else st.getVariableValue idv

/-- Visitor::getListElement: InternalError when the list is undefined,
then the SymbolTable access. -/
def getListElementV (st : SymTab) (idv : String) (index : Int) (line col : Nat) :
    Except Fail Value :=
  if !(st.isListDefined idv) then intErr line col "List is not defined"
  else st.getListElement idv index

/-- Visitor::getListSize. -/
def getListSizeV (st : SymTab) (idv : String) (line col : Nat) : Except Fail Int :=
  if !(st.isListDefined idv) then intErr line col "List is not defined"
  else st.getListSize idv

/-! Expression evaluation (Visitor::eval and Visitor::getDataType,
which are mutually recursive: getDataType on an indexed read evaluates
the index expression).  The two functions become one fuel-indexed
function over a two-constructor task type. -/

/-- Which of the two mutually recursive expression walks to run. -/
inductive EvalTask
  | ev (e : Expr)
  | dt (e : Expr)

/-- Result of an expression walk: a value for eval, a type for
getDataType. -/
inductive EvalRes
  | val (v : Value)
  | ty (t : Types)
deriving Repr, DecidableEq

/-- Visitor::eval (task ev) and Visitor::getDataType (task dt), one
fuel unit per call.  Every branch mirrors the corresponding dispatch of
visitor.cpp; in the or/and cases the two getDataType calls sit inside a
short-circuit disjunction, in the other binary cases both are computed
before the check, as in the source. -/
def evalCore : Nat → SymTab → EvalTask → Except Fail EvalRes
  | 0, _, _ => .error .fuel
  | fuel + 1, st, .ev e =>
    match e with
    | .orE l r line col =>
      match evalCore fuel st (.dt l) with
      | .error f => .error f
      | .ok (.ty tl) =>
        if tl ≠ .TYPE_BOOL then typErr line col "Operands of or must be boolean"
        else
          match evalCore fuel st (.dt r) with
          | .error f => .error f
          | .ok (.ty tr) =>
            if tr ≠ .TYPE_BOOL then typErr line col "Operands of or must be boolean"
            else
              match evalCore fuel st (.ev l) with
              | .error f => .error f
              | .ok (.val lv) =>
                match getBoolValueE lv with
                | .error f => .error f
                | .ok lb =>
                  if lb then .ok (.val (.b true))
                  else
                    match evalCore fuel st (.ev r) with
                    | .error f => .error f
                    | .ok (.val rv) =>
                      match getBoolValueE rv with
                      | .error f => .error f
                      | .ok rb => .ok (.val (.b rb))
                    | .ok _ => .error .stuck
              | .ok _ => .error .stuck
          | .ok _ => .error .stuck
      | .ok _ => .error .stuck
    | .andE l r line col =>
      match evalCore fuel st (.dt l) with
      | .error f => .error f
      | .ok (.ty tl) =>
        if tl ≠ .TYPE_BOOL then typErr line col "Operands of and must be boolean"
        else
          match evalCore fuel st (.dt r) with
          | .error f => .error f
          | .ok (.ty tr) =>
            if tr ≠ .TYPE_BOOL then typErr line col "Operands of and must be boolean"
            else
              match evalCore fuel st (.ev l) with
              | .error f => .error f
              | .ok (.val lv) =>
                match getBoolValueE lv with
                | .error f => .error f
                | .ok lb =>
                  if !lb then .ok (.val (.b false))
                  else
                    match evalCore fuel st (.ev r) with
                    | .error f => .error f
                    | .ok (.val rv) =>
                      match getBoolValueE rv with
                      | .error f => .error f
                      | .ok rb => .ok (.val (.b rb))
                    | .ok _ => .error .stuck
              | .ok _ => .error .stuck
          | .ok _ => .error .stuck
      | .ok _ => .error .stuck
    | .eqE op l r line col =>
      match evalCore fuel st (.dt l) with
      | .error f => .error f
      | .ok (.ty tl) =>
        match evalCore fuel st (.dt r) with
        | .error f => .error f
        | .ok (.ty tr) =>
          if tl = .TYPE_UNDEFINED ∨ tr = .TYPE_UNDEFINED ∨ tl ≠ tr then
            typErr line col "Operands of equality must be of the same type (int or bool)"
          else
            match evalCore fuel st (.ev l) with
            | .error f => .error f
            | .ok (.val lv) =>
              match evalCore fuel st (.ev r) with
              | .error f => .error f
              | .ok (.val rv) =>
                match lv with
                | .b lb =>
                  match getBoolValueE rv with
                  | .error f => .error f
                  | .ok rb =>
                    .ok (.val (.b (if op == .EQ then lb == rb else lb != rb)))
                | .i li =>
                  match getIntValueE rv with
                  | .error f => .error f
                  | .ok ri =>
                    .ok (.val (.b (if op == .EQ then li == ri else li != ri)))
              | .ok _ => .error .stuck
            | .ok _ => .error .stuck
        | .ok _ => .error .stuck
      | .ok _ => .error .stuck
    | .cmpE op l r line col =>
      match evalCore fuel st (.dt l) with
      | .error f => .error f
      | .ok (.ty tl) =>
        match evalCore fuel st (.dt r) with
        | .error f => .error f
        | .ok (.ty tr) =>
          if tl ≠ .TYPE_INT ∨ tr ≠ .TYPE_INT then
            typErr line col "Operands of comparisons must be integers"
          else
            match evalCore fuel st (.ev l) with
            | .error f => .error f
            | .ok (.val lv) =>
              match evalCore fuel st (.ev r) with
              | .error f => .error f
              | .ok (.val rv) =>
                match getIntValueE lv with
                | .error f => .error f
                | .ok li =>
                  match getIntValueE rv with
                  | .error f => .error f
                  | .ok ri =>
                    match op with
                    | .LT => .ok (.val (.b (li < ri)))
                    | .LE => .ok (.val (.b (li ≤ ri)))
                    | .GT => .ok (.val (.b (ri < li)))
                    | .GE => .ok (.val (.b (ri ≤ li)))
                    | _ => intErr line col "Unknown operator in relational expression"
              | .ok _ => .error .stuck
            | .ok _ => .error .stuck
        | .ok _ => .error .stuck
      | .ok _ => .error .stuck
    | .addE op l r line col =>
      match evalCore fuel st (.dt l) with
      | .error f => .error f
      | .ok (.ty tl) =>
        match evalCore fuel st (.dt r) with
        | .error f => .error f
        | .ok (.ty tr) =>
          if tl ≠ .TYPE_INT ∨ tr ≠ .TYPE_INT then
            typErr line col "Operands of arithmetic expressions must be integers"
          else
            match evalCore fuel st (.ev l) with
            | .error f => .error f
            | .ok (.val lv) =>
              match evalCore fuel st (.ev r) with
              | .error f => .error f
              | .ok (.val rv) =>
                match getIntValueE lv with
                | .error f => .error f
                | .ok li =>
                  match getIntValueE rv with
                  | .error f => .error f
                  | .ok ri =>
                    match op with
                    | .ADD => .ok (.val (.i (li + ri)))
                    | .SUB => .ok (.val (.i (li - ri)))
                    | _ => intErr line col "Unknown operator in arithmetic expression"
              | .ok _ => .error .stuck
            | .ok _ => .error .stuck
        | .ok _ => .error .stuck
      | .ok _ => .error .stuck
    | .mulE op l r line col =>
      match evalCore fuel st (.dt l) with
      | .error f => .error f
      | .ok (.ty tl) =>
        match evalCore fuel st (.dt r) with
        | .error f => .error f
        | .ok (.ty tr) =>
          if tl ≠ .TYPE_INT ∨ tr ≠ .TYPE_INT then
            typErr line col "Operands of arithmetic expressions must be integers"
          else
            match evalCore fuel st (.ev l) with
            | .error f => .error f
            | .ok (.val lv) =>
              match evalCore fuel st (.ev r) with
              | .error f => .error f
              | .ok (.val rv) =>
                match getIntValueE lv with
                | .error f => .error f
                | .ok li =>
                  match getIntValueE rv with
                  | .error f => .error f
                  | .ok ri =>
                    match op with
                    | .MUL => .ok (.val (.i (li * ri)))
                    | .DIV =>
                      if ri = 0 then zdvErr line col "Division by zero"
                      else .ok (.val (.i (Int.tdiv li ri)))
                    | _ => intErr line col "Unknown operator in arithmetic expression"
              | .ok _ => .error .stuck
            | .ok _ => .error .stuck
        | .ok _ => .error .stuck
      | .ok _ => .error .stuck
    | .notE u line col =>
      match evalCore fuel st (.dt u) with
      | .error f => .error f
      | .ok (.ty tu) =>
        if tu ≠ .TYPE_BOOL then typErr line col "Operand of not must be boolean"
        else
          match evalCore fuel st (.ev u) with
          | .error f => .error f
          | .ok (.val uv) =>
            match getBoolValueE uv with
            | .error f => .error f
            | .ok ub => .ok (.val (.b (!ub)))
          | .ok _ => .error .stuck
      | .ok _ => .error .stuck
    | .negE u line col =>
      match evalCore fuel st (.dt u) with
      | .error f => .error f
      | .ok (.ty tu) =>
        if tu ≠ .TYPE_INT then typErr line col "Operand of unary minus must be integer"
        else
          match evalCore fuel st (.ev u) with
          | .error f => .error f
          | .ok (.val uv) =>
            match getIntValueE uv with
            | .error f => .error f
            | .ok ui => .ok (.val (.i (-ui)))
          | .ok _ => .error .stuck
      | .ok _ => .error .stuck
    | .parenE e2 _ _ => evalCore fuel st (.ev e2)
    | .numE v _ _ => .ok (.val (.i v))
    | .boolE v _ _ => .ok (.val (.b v))
    | .idE idv line col =>
      if !(st.isVariableDefined idv) then semErr line col "Variable is not defined"
      else
        match getVariableValueV st idv line col with
        | .error f => .error f
        | .ok v => .ok (.val v)
    | .elemE idv idx line col =>
      if !(st.isListDefined idv) then semErr line col "List is not defined"
      else
        match evalCore fuel st (.ev idx) with
        | .error f => .error f
        | .ok (.val iv) =>
          if iv.ty ≠ .TYPE_INT then typErr line col "List index must be an integer"
          else
            match getIntValueE iv with
            | .error f => .error f
            | .ok ii =>
              if ii < 0 then semErr line col "List index out of bounds"
              else
                match getListSizeV st idv line col with
                | .error f => .error f
                | .ok sz =>
                  if sz ≤ ii then semErr line col "List index out of bounds"
                  else
                    match getListElementV st idv ii line col with
                    | .error f => .error f
                    | .ok v => .ok (.val v)
        | .ok _ => .error .stuck
  | fuel + 1, st, .dt e =>
    match e with
    | .orE l r _ _ =>
      match evalCore fuel st (.dt l) with
      | .error f => .error f
      | .ok (.ty tl) =>
        match evalCore fuel st (.dt r) with
        | .error f => .error f
        | .ok (.ty tr) =>
          if tl = .TYPE_BOOL ∧ tr = .TYPE_BOOL then .ok (.ty .TYPE_BOOL)
          else .ok (.ty .TYPE_UNDEFINED)
        | .ok _ => .error .stuck
      | .ok _ => .error .stuck
    | .andE l r _ _ =>
      match evalCore fuel st (.dt l) with
      | .error f => .error f
      | .ok (.ty tl) =>
        match evalCore fuel st (.dt r) with
        | .error f => .error f
        | .ok (.ty tr) =>
          if tl = .TYPE_BOOL ∧ tr = .TYPE_BOOL then .ok (.ty .TYPE_BOOL)
          else .ok (.ty .TYPE_UNDEFINED)
        | .ok _ => .error .stuck
      | .ok _ => .error .stuck
    | .eqE _ l r _ _ =>
      match evalCore fuel st (.dt l) with
      | .error f => .error f
      | .ok (.ty tl) =>
        match evalCore fuel st (.dt r) with
        | .error f => .error f
        | .ok (.ty tr) =>
          if tl = .TYPE_UNDEFINED ∨ tr = .TYPE_UNDEFINED ∨ tl ≠ tr then .ok (.ty .TYPE_UNDEFINED)
          else .ok (.ty .TYPE_BOOL)
        | .ok _ => .error .stuck
      | .ok _ => .error .stuck
    | .cmpE _ l r _ _ =>
      match evalCore fuel st (.dt l) with
      | .error f => .error f
      | .ok (.ty tl) =>
        match evalCore fuel st (.dt r) with
        | .error f => .error f
        | .ok (.ty tr) =>
          if tl = .TYPE_INT ∧ tr = .TYPE_INT then .ok (.ty .TYPE_BOOL)
          else .ok (.ty .TYPE_UNDEFINED)
        | .ok _ => .error .stuck
      | .ok _ => .error .stuck
    | .addE _ l r _ _ =>
      match evalCore fuel st (.dt l) with
      | .error f => .error f
      | .ok (.ty tl) =>
        match evalCore fuel st (.dt r) with
        | .error f => .error f
        | .ok (.ty tr) =>
          if tl = .TYPE_INT ∧ tr = .TYPE_INT then .ok (.ty .TYPE_INT)
          else .ok (.ty .TYPE_UNDEFINED)
        | .ok _ => .error .stuck
      | .ok _ => .error .stuck
    | .mulE _ l r _ _ =>
      match evalCore fuel st (.dt l) with
      | .error f => .error f
      | .ok (.ty tl) =>
        match evalCore fuel st (.dt r) with
        | .error f => .error f
        | .ok (.ty tr) =>
          if tl = .TYPE_INT ∧ tr = .TYPE_INT then .ok (.ty .TYPE_INT)
          else .ok (.ty .TYPE_UNDEFINED)
        | .ok _ => .error .stuck
      | .ok _ => .error .stuck
    | .notE u _ _ =>
      match evalCore fuel st (.dt u) with
      | .error f => .error f
      | .ok (.ty tu) =>
        if tu = .TYPE_BOOL then .ok (.ty .TYPE_BOOL) else .ok (.ty .TYPE_UNDEFINED)
      | .ok _ => .error .stuck
    | .negE u _ _ =>
      match evalCore fuel st (.dt u) with
      | .error f => .error f
      | .ok (.ty tu) =>
        if tu = .TYPE_INT then .ok (.ty .TYPE_INT) else .ok (.ty .TYPE_UNDEFINED)
      | .ok _ => .error .stuck
    | .parenE e2 _ _ => evalCore fuel st (.dt e2)
    | .numE _ _ _ => .ok (.ty .TYPE_INT)
    | .boolE _ _ _ => .ok (.ty .TYPE_BOOL)
    | .idE idv line col =>
      if !(st.isVariableDefined idv) then semErr line col "Variable is not defined"
      else
        match getVariableValueV st idv line col with
        | .error f => .error f
        | .ok v => .ok (.ty v.ty)
    | .elemE idv idx line col =>
      if !(st.isListDefined idv) then semErr line col "List is not defined"
      else
        match evalCore fuel st (.ev idx) with
        | .error f => .error f
        | .ok (.val iv) =>
          match getIntValueE iv with
          | .error f => .error f
          | .ok ii =>
            match st.getListElement idv ii with
            | .error f => .error f
            | .ok v => .ok (.ty v.ty)
        | .ok _ => .error .stuck

/-! Statement execution (the visit methods of visitor.cpp).  The whole
mutually recursive family of visit methods and their in-method loops is
one fuel-indexed function over a task type; one fuel unit per call. -/

/-- Evaluator state: symbol table, the two control stacks of visitor.h
(head is the top), and the lines printed so far in order. -/
structure EvalSt where
  tab : SymTab
  condStack : List Bool
  loopStack : List Bool
  out : List String
deriving Repr, DecidableEq

/-- Initial evaluator state. -/
def initEvalSt : EvalSt :=
  { tab := { intVars := [], boolVars := [], lists := [] },
    condStack := [], loopStack := [], out := [] }

/-- One constructor per visit method or in-method loop of visitor.cpp:
stmt is visitStatement, seqStmts is the plain statement loop of
visitProgram and visitSimpleBlock, ifBlocks1/ifBlocks2 are the two
block loops of visitIfStatement, elifT is visitElifBlock, elseT is
visitElseBlock, whileIter is one while(true) iteration of
visitWhileStatement, whileBody is its inner statement loop with the
break/continue checks. -/
inductive VTask
  | stmt (s : Stmt)
  | seqStmts (l : List Stmt)
  | ifBlocks1 (bs : List Blk)
  | ifBlocks2 (bs : List Blk)
  | elifT (cond : Expr) (body : List Stmt) (line col : Nat)
  | elseT (body : List Stmt) (line col : Nat)
  | whileIter (cond : Expr) (blocks : List Blk) (line col : Nat)
  | whileBody (l : List Stmt)

/-- The statement executor.  Each case mirrors the visitor.cpp method
named in its comment. -/
def exec : Nat → EvalSt → VTask → Except Fail EvalSt
  | 0, _, _ => .error .fuel
  | fuel + 1, st, task =>
    match task with
    -- visitProgram / visitSimpleBlock statement loop
    | .seqStmts l =>
      match l with
      | [] => .ok st
      | s :: rest =>
        match exec fuel st (.stmt s) with
        | .error f => .error f
        | .ok st1 => exec fuel st1 (.seqStmts rest)
    -- visitStatement dispatch
    | .stmt s =>
      match s with
      -- visitAssignmentStatement
      | .assign loc e _ _ =>
        match evalCore fuel st.tab (.ev e) with
        | .error f => .error f
        | .ok (.val v) =>
          match loc with
          | .idL idv line col =>
            if st.tab.isVariableDefined idv then
              match updateVariableV st.tab idv v with
              | .error f => .error f
              | .ok tab1 => .ok { st with tab := tab1 }
            else if st.tab.isListDefined idv && !(st.tab.isVariableDefined idv) then
              match st.tab.clearList idv with
              | .error f => .error f
              | .ok tab1 =>
                match addVariableV tab1 idv v with
                | .error f => .error f
                | .ok tab2 => .ok { st with tab := tab2 }
            else if !(isAlreadyDefined st.tab idv) then
              match addVariableV st.tab idv v with
              | .error f => .error f
              | .ok tab1 => .ok { st with tab := tab1 }
            else semErr line col "Identifier is not defined"
          | .elemL idv idxE line col =>
            if !(st.tab.isListDefined idv) then semErr line col "List is not defined"
            else
              match evalCore fuel st.tab (.ev idxE) with
              | .error f => .error f
              | .ok (.val iv) =>
                if iv.ty ≠ .TYPE_INT then
                  semErr idxE.lin idxE.colm "List index must be an integer"
                else
                  match getIntValueE iv with
                  | .error f => .error f
                  | .ok ii =>
                    match st.tab.updateListElement idv ii v with
                    | .error f => .error f
                    | .ok tab1 => .ok { st with tab := tab1 }
              | .ok _ => .error .stuck
        | .ok _ => .error .stuck
      -- visitListDeclarationStatement
      | .listDecl idv line col =>
        if isAlreadyDefined st.tab idv then semErr line col "Identifier is already defined"
        else .ok { st with tab := st.tab.addList idv }
      -- visitListAppendStatement
      | .listApp idv e line col =>
        if !(st.tab.isListDefined idv) then semErr line col "List is not defined"
        else
          match evalCore fuel st.tab (.ev e) with
          | .error f => .error f
          | .ok (.val v) =>
            match st.tab.appendToList idv v with
            | .error f => .error f
            | .ok tab1 => .ok { st with tab := tab1 }
          | .ok _ => .error .stuck
      -- visitPrintStatement
      | .print e _ _ =>
        match evalCore fuel st.tab (.ev e) with
        | .error f => .error f
        | .ok (.val v) =>
          match v with
          | .i n => .ok { st with out := st.out ++ [toString n] }
          | .b bv => .ok { st with out := st.out ++ [if bv then "True" else "False"] }
        | .ok _ => .error .stuck
      -- visitBreakStatement
      | .brk line col =>
        match st.loopStack with
        | [] => semErr line col "Break statement not allowed outside of loop"
        | _ :: rest => .ok { st with loopStack := false :: rest }
      -- visitContinueStatement
      | .cont line col =>
        match st.loopStack with
        | [] => semErr line col "Continue statement not allowed outside of loop"
        | _ => .ok st
      -- visitIfStatement: evaluate the condition, push false on the
      -- condition stack, type check, then the two block loops, pop
      | .ifS cond blocks _ _ =>
        match evalCore fuel st.tab (.ev cond) with
        | .error f => .error f
        | .ok (.val v) =>
          let st1 := { st with condStack := false :: st.condStack }
          if v.ty ≠ .TYPE_BOOL then
            semErr cond.lin cond.colm "If condition must be boolean"
          else
            match getBoolValueE v with
            | .error f => .error f
            | .ok bv =>
              match
                (if bv then
                  exec fuel { st1 with condStack := true :: st.condStack } (.ifBlocks1 blocks)
                 else .ok st1) with
              | .error f => .error f
              | .ok st2 =>
                match exec fuel st2 (.ifBlocks2 blocks) with
                | .error f => .error f
                | .ok st3 =>
                  match st3.condStack with
                  | [] => .error .stuck
                  | _ :: rest => .ok { st3 with condStack := rest }
        | .ok _ => .error .stuck
      -- visitWhileStatement: push true on the loop stack, iterate, pop
      | .whileS cond blocks line col =>
        let st1 := { st with loopStack := true :: st.loopStack }
        match exec fuel st1 (.whileIter cond blocks line col) with
        | .error f => .error f
        | .ok st2 =>
          match st2.loopStack with
          | [] => .error .stuck
          | _ :: rest => .ok { st2 with loopStack := rest }
    -- first block loop of visitIfStatement: visits every block
    | .ifBlocks1 bs =>
      match bs with
      | [] => .ok st
      | b :: rest =>
        match
          (match b with
           | .simpleB ss _ _ => exec fuel st (.seqStmts ss)
           | .elifB c body line col => exec fuel st (.elifT c body line col)
           | .elseB body line col => exec fuel st (.elseT body line col)) with
        | .error f => .error f
        | .ok st1 => exec fuel st1 (.ifBlocks1 rest)
    -- second block loop of visitIfStatement: elif and else blocks only
    | .ifBlocks2 bs =>
      match bs with
      | [] => .ok st
      | b :: rest =>
        let step : Except Fail EvalSt :=
          match b with
          | .simpleB _ _ _ => .ok st
          | .elifB c body line col => exec fuel st (.elifT c body line col)
          | .elseB body line col => exec fuel st (.elseT body line col)
        match step with
        | .error f => .error f
        | .ok st1 => exec fuel st1 (.ifBlocks2 rest)
    -- visitElifBlock
    | .elifT cond body line col =>
      match st.condStack with
      | [] => intErr line col "Elif block outside of if statement"
      | top :: rest =>
        if top then .ok st
        else
          match evalCore fuel st.tab (.ev cond) with
          | .error f => .error f
          | .ok (.val v) =>
            match getBoolValueE v with
            | .error f => .error f
            | .ok bv =>
              if bv then
                match exec fuel { st with condStack := true :: rest } (.seqStmts body) with
                | .error f => .error f
                | .ok st2 =>
                  match st2.condStack with
                  | [] => .error .stuck
                  | _ :: rest2 => .ok { st2 with condStack := true :: rest2 }
              else .ok st
          | .ok _ => .error .stuck
    -- visitElseBlock
    | .elseT body line col =>
      match st.condStack with
      | [] => intErr line col "Else block outside of if statement"
      | top :: _ =>
        if top then .ok st
        else
          match exec fuel st (.seqStmts body) with
          | .error f => .error f
          | .ok st2 =>
            match st2.condStack with
            | [] => .error .stuck
            | _ :: rest2 => .ok { st2 with condStack := true :: rest2 }
    -- one while(true) iteration of visitWhileStatement
    | .whileIter cond blocks line col =>
      match evalCore fuel st.tab (.ev cond) with
      | .error f => .error f
      | .ok (.val v) =>
        if v.ty ≠ .TYPE_BOOL then
          semErr cond.lin cond.colm "While condition must be boolean"
        else
          match getBoolValueE v with
          | .error f => .error f
          | .ok bv =>
            if !bv then .ok st
            else
              match st.loopStack with
              | [] => .error .stuck
              | active :: _ =>
                if !active then .ok st
                else
                  match blocks with
                  | [b] =>
                    match b with
                    | .simpleB ss _ _ =>
                      match exec fuel st (.whileBody ss) with
                      | .error f => .error f
                      | .ok st1 => exec fuel st1 (.whileIter cond blocks line col)
                    | _ => .error .stuck
                  | _ => semErr line col "While statement must have exactly one block"
      | .ok _ => .error .stuck
    -- the body loop of visitWhileStatement: a top-level break sets the
    -- loop flag and leaves the loop, a top-level continue moves to the
    -- NEXT STATEMENT (the C++ continue applies to the statement loop),
    -- everything else is dispatched through visitStatement, and the
    -- loop flag is NOT re-checked between statements
    | .whileBody l =>
      match l with
      | [] => .ok st
      | s :: rest =>
        match s with
        | .brk _ _ =>
          match st.loopStack with
          | [] => .error .stuck
          | _ :: rest2 => .ok { st with loopStack := false :: rest2 }
        | .cont _ _ => exec fuel st (.whileBody rest)
        | _ =>
          match exec fuel st (.stmt s) with
          | .error f => .error f
          | .ok st1 => exec fuel st1 (.whileBody rest)

/-- Visitor::visitProgram followed by reading the printed lines. -/
def runProgram (fuel : Nat) (prog : List Stmt) : Except Fail (List String) :=
  match exec fuel initEvalSt (.seqStmts prog) with
  | .ok st => .ok st.out
  | .error f => .error f

/-- The pipeline of main.cpp on an already opened source: lexer, then
parser, then evaluator; the result is the list of printed lines. -/
def interp (fuel : Nat) (src : String) : Except Fail (List String) :=
  match lexFile src with
  | .error f => .error f
  | .ok toks =>
    match parseProg fuel toks with
    | .error f => .error f
    | .ok prog => runProgram fuel prog

/-! Derived notions used by the specification claims. -/

/-- Number of Indent tokens in a token list. -/
def indentCount : List Tok → Nat
  | [] => 0
  | .indentation true _ _ :: r => indentCount r + 1
  | _ :: r => indentCount r

/-- Number of Dedent tokens in a token list. -/
def dedentCount : List Tok → Nat
  | [] => 0
  | .indentation false _ _ :: r => dedentCount r + 1
  | _ :: r => dedentCount r

/-- The symbol-table invariant of the specification: a single name
occupies at most one slot at a time.  Each of the three maps binds a
name at most once, a name bound as an int scalar is bound neither as a
bool scalar nor as a list, and a name bound as a bool scalar is not
bound as a list. -/
def TableInv (tab : SymTab) : Prop :=
  (tab.intVars.map Prod.fst).Nodup ∧
  (tab.boolVars.map Prod.fst).Nodup ∧
  (tab.lists.map Prod.fst).Nodup ∧
  ∀ k, ((lookupA tab.intVars k).isSome →
          lookupA tab.boolVars k = none ∧ lookupA tab.lists k = none) ∧
       ((lookupA tab.boolVars k).isSome → lookupA tab.lists k = none)

/-- True for every error category other than the three that the
taxonomy defines but no component raises. -/
def notPhantom (c : ErrorCode) : Bool :=
  !(c == .INDEX_ERROR || c == .EVALUATION_ERROR || c == .RESERVED_KEYWORD_ERROR)

/-- The scenario-6 program of the specification. -/
def scenario6 : String :=
  "i = 0\nwhile i < 10:\n    if i == 3:\n        break\n    print(i)\n    i = i + 1\n"

/-- An error category that the program can actually raise: everything in
the taxonomy except the three classes no throw site of the source uses. -/
def benignCode (c : ErrorCode) : Prop :=
  c ≠ .INDEX_ERROR ∧ c ≠ .EVALUATION_ERROR ∧ c ≠ .RESERVED_KEYWORD_ERROR

/-- A failure outcome whose error class, if any, is one the source can
raise. -/
def benignFail : Fail → Prop
  | .err e => benignCode e.code
  | .fuel => True
  | .stuck => True

/-- The line counter after consuming a character list starting from l0:
the fold of the Lexer::getChar update, which increments the line on a
newline. -/
def lineAfter (l0 : Nat) (cs : List Char) : Nat :=
  cs.foldl (fun l ch => if ch = '\n' then l + 1 else l) l0

/-- The column counter after consuming a character list starting from
c0: the fold of the Lexer::getChar update, which resets the column to 0
on a newline and increments it otherwise. -/
def colAfter (c0 : Nat) (cs : List Char) : Nat :=
  cs.foldl (fun c ch => if ch = '\n' then 0 else c + 1) c0

/-! Theorems: the ten claims of the specification, their witnesses
and the helper lemmas they share. -/

/-- C2 (amended): short-circuit evaluation as the code implements it.
Because Visitor::eval first type-checks BOTH operands through
getDataType, the claim holds only for right operands whose getDataType
succeeds with TYPE_BOOL: for those, True or E yields true and
False and E yields false without evaluating E (the witness takes E with
a side effect, a division by zero, that eval would raise). -/
theorem c2am : ∀ (m : Nat) (st : SymTab) (E : Expr) (l1 c1 l2 c2 : Nat),
    evalCore (m + 1) st (.dt E) = .ok (.ty .TYPE_BOOL) →
    evalCore (m + 2) st (.ev (.orE (.boolE true l1 c1) E l2 c2)) = .ok (.val (.b true)) ∧
    evalCore (m + 2) st (.ev (.andE (.boolE false l1 c1) E l2 c2)) = .ok (.val (.b false)) := by
  intro m st E l1 c1 l2 c2 h
  constructor
  · have h2 := h
    simp only [evalCore] at h2 ⊢
    rw [h2]
    simp [getBoolValueE]
  · have h2 := h
    simp only [evalCore] at h2 ⊢
    rw [h2]
    simp [getBoolValueE]

theorem lineAfter_cons (l0 : Nat) (a : Char) (rest : List Char) :
    lineAfter l0 (a :: rest) = lineAfter (if a = '\n' then l0 + 1 else l0) rest := rfl

theorem colAfter_cons (c0 : Nat) (a : Char) (rest : List Char) :
    colAfter c0 (a :: rest) = colAfter (if a = '\n' then 0 else c0 + 1) rest := rfl

theorem lineAfter_append (l0 : Nat) (a b : List Char) :
    lineAfter l0 (a ++ b) = lineAfter (lineAfter l0 a) b := by
  simp [lineAfter, List.foldl_append]

theorem colAfter_append (c0 : Nat) (a b : List Char) :
    colAfter c0 (a ++ b) = colAfter (colAfter c0 a) b := by
  simp [colAfter, List.foldl_append]

theorem takeWhileCh_append (p : Char → Bool) : ∀ l : List Char,
    (takeWhileCh p l).1 ++ (takeWhileCh p l).2 = l := by
  intro l
  induction l with
  | nil => rfl
  | cons c rest ih =>
    by_cases h : p c = true
    · simp [takeWhileCh, h, ih]
    · simp [takeWhileCh, h]

theorem takeWhileCh_all (p : Char → Bool) : ∀ (l : List Char) (c : Char),
    c ∈ (takeWhileCh p l).1 → p c = true := by
  intro l
  induction l with
  | nil => intro c hc; simp [takeWhileCh] at hc
  | cons a rest ih =>
    intro c hc
    by_cases h : p a = true
    · simp only [takeWhileCh, if_pos h, List.mem_cons] at hc
      rcases hc with hc | hc
      · subst hc; exact h
      · exact ih c hc
    · simp [takeWhileCh, h] at hc

theorem lineAfter_no_nl : ∀ (cs : List Char) (l0 : Nat), (∀ c ∈ cs, ¬ c = '\n') →
    lineAfter l0 cs = l0 := by
  intro cs
  induction cs with
  | nil => intro l0 _; rfl
  | cons a rest ih =>
    intro l0 h
    rw [lineAfter_cons, if_neg (h a (by simp))]
    exact ih l0 (fun c hc => h c (by simp [hc]))

theorem colAfter_no_nl : ∀ (cs : List Char) (c0 : Nat), (∀ c ∈ cs, ¬ c = '\n') →
    colAfter c0 cs = c0 + cs.length := by
  intro cs
  induction cs with
  | nil => intro c0 _; rfl
  | cons a rest ih =>
    intro c0 h
    rw [colAfter_cons, if_neg (h a (by simp)), ih (c0 + 1) (fun c hc => h c (by simp [hc]))]
    simp only [List.length_cons]
    omega

theorem isWordCh_ne_nl (c : Char) (h : isWordCh c = true) : ¬ c = '\n' := by
  intro hc
  subst hc
  exact absurd h (by decide)

theorem isDigit09_ne_nl (c : Char) (h : isDigit09 c = true) : ¬ c = '\n' := by
  intro hc
  subst hc
  exact absurd h (by decide)

theorem lineAfter_takeWhile (p : Char → Bool) (hp : ∀ c, p c = true → ¬ c = '\n')
    (l0 : Nat) (l : List Char) :
    lineAfter l0 l = lineAfter l0 (takeWhileCh p l).2 := by
  conv_lhs => rw [← takeWhileCh_append p l]
  rw [lineAfter_append,
      lineAfter_no_nl (takeWhileCh p l).1 l0 (fun c hc => hp c (takeWhileCh_all p l c hc))]

theorem colAfter_takeWhile (p : Char → Bool) (hp : ∀ c, p c = true → ¬ c = '\n')
    (c0 : Nat) (l : List Char) :
    colAfter c0 l = colAfter (c0 + (takeWhileCh p l).1.length) (takeWhileCh p l).2 := by
  conv_lhs => rw [← takeWhileCh_append p l]
  rw [colAfter_append,
      colAfter_no_nl (takeWhileCh p l).1 c0 (fun c hc => hp c (takeWhileCh_all p l c hc))]

theorem lexLoop_eofStamp : ∀ (fuel : Nat) (st : LexSt) (cs : List Char) (toks : List Tok),
    lexLoop fuel st cs = .ok toks →
    ∃ pre, toks = pre ++ [Tok.eof (lineAfter st.line cs) (colAfter st.col cs)] := by
  intro fuel
  induction fuel with
  | zero => intro st cs toks h; exact absurd h (by simp [lexLoop])
  | succ n ih =>
    intro st cs toks h
    cases cs with
    | nil =>
      simp only [lexLoop] at h
      split at h
      · simp only [Except.ok.injEq] at h
        subst h
        exact ⟨(drainDedents st.line st.col st.indentStack ++ st.res).reverse,
          List.reverse_cons _ _⟩
      · simp [lexErr] at h
    | cons ch rest =>
      simp only [lexLoop] at h
      by_cases hc1 : ((ch == ' ' || ch == '\t') &&
          (st.res.isEmpty || (headIsNewline st.res && st.indent))) = true
      · rw [if_pos hc1] at h
        have hx := ih _ _ _ h
        exact hx
      · rw [if_neg hc1] at h
        split at h
        · simp at h
        · rename_i stI heq
          by_cases hb1 : isLetterCh ch = true
          · rw [if_pos hb1] at h
            obtain ⟨pre, hp⟩ := ih _ _ _ h
            refine ⟨pre, ?_⟩
            rw [hp, lineAfter_cons, colAfter_cons,
                lineAfter_takeWhile isWordCh isWordCh_ne_nl _ rest,
                colAfter_takeWhile isWordCh isWordCh_ne_nl _ rest]
          rw [if_neg hb1] at h
          by_cases hb2 : isDigit19 ch = true
          · rw [if_pos hb2] at h
            obtain ⟨pre, hp⟩ := ih _ _ _ h
            refine ⟨pre, ?_⟩
            rw [hp, lineAfter_cons, colAfter_cons,
                lineAfter_takeWhile isDigit09 isDigit09_ne_nl _ rest,
                colAfter_takeWhile isDigit09 isDigit09_ne_nl _ rest]
          rw [if_neg hb2] at h
          by_cases hb3 : (ch == '\n' || ch == '\x0d') = true
          · rw [if_pos hb3] at h
            have hx := ih _ _ _ h
            exact hx
          rw [if_neg hb3] at h
          by_cases hb4 : (ch == '0') = true
          · rw [if_pos hb4] at h
            rw [beq_iff_eq] at hb4
            subst hb4
            simp only [if_neg (show ¬ (('0' : Char) = '\n') from by decide)] at h
            repeat' split at h
            all_goals first
              | simp [lexErr] at h
              | (have hx := ih _ _ _ h
                 exact hx)
              | (rename_i hab; exact absurd hab (by decide))
          rw [if_neg hb4] at h
          by_cases hb5 : (ch == '=') = true
          · rw [if_pos hb5] at h
            rw [beq_iff_eq] at hb5
            subst hb5
            simp only [if_neg (show ¬ (('=' : Char) = '\n') from by decide)] at h
            repeat' split at h
            all_goals first
              | simp [lexErr] at h
              | (have hx := ih _ _ _ h
                 exact hx)
              | (rename_i hab; exact absurd hab (by decide))
          rw [if_neg hb5] at h
          by_cases hb6 : (ch == '!' && decide (rest.head? = some '=')) = true
          · rw [if_pos hb6] at h
            cases rest with
            | nil => simp at hb6
            | cons r0 rt =>
              have hr0 : r0 = '=' := by
                have h2 := hb6
                simp at h2
                exact h2.2
              subst hr0
              have hx := ih _ _ _ h
              exact hx
          rw [if_neg hb6] at h
          by_cases hb7 : (ch == '<') = true
          · rw [if_pos hb7] at h
            rw [beq_iff_eq] at hb7
            subst hb7
            simp only [if_neg (show ¬ (('<' : Char) = '\n') from by decide)] at h
            repeat' split at h
            all_goals first
              | simp [lexErr] at h
              | (have hx := ih _ _ _ h
                 exact hx)
              | (rename_i hab; exact absurd hab (by decide))
          rw [if_neg hb7] at h
          by_cases hb8 : (ch == '>') = true
          · rw [if_pos hb8] at h
            rw [beq_iff_eq] at hb8
            subst hb8
            simp only [if_neg (show ¬ (('>' : Char) = '\n') from by decide)] at h
            repeat' split at h
            all_goals first
              | simp [lexErr] at h
              | (have hx := ih _ _ _ h
                 exact hx)
              | (rename_i hab; exact absurd hab (by decide))
          rw [if_neg hb8] at h
          by_cases hb9 : (ch == '+') = true
          · rw [if_pos hb9] at h
            have hx := ih _ _ _ h
            exact hx
          rw [if_neg hb9] at h
          by_cases hb10 : (ch == '-') = true
          · rw [if_pos hb10] at h
            have hx := ih _ _ _ h
            exact hx
          rw [if_neg hb10] at h
          by_cases hb11 : (ch == '*') = true
          · rw [if_pos hb11] at h
            have hx := ih _ _ _ h
            exact hx
          rw [if_neg hb11] at h
          by_cases hb12 : (ch == '/') = true
          · rw [if_pos hb12] at h
            rw [beq_iff_eq] at hb12
            subst hb12
            simp only [if_neg (show ¬ (('/' : Char) = '\n') from by decide)] at h
            repeat' split at h
            all_goals first
              | simp [lexErr] at h
              | (have hx := ih _ _ _ h
                 exact hx)
              | (rename_i hab; exact absurd hab (by decide))
          rw [if_neg hb12] at h
          by_cases hb13 : (ch == ':') = true
          · rw [if_pos hb13] at h
            have hx := ih _ _ _ h
            exact hx
          rw [if_neg hb13] at h
          by_cases hb14 : (ch == '.') = true
          · rw [if_pos hb14] at h
            have hx := ih _ _ _ h
            exact hx
          rw [if_neg hb14] at h
          by_cases hb15 : (ch == '(') = true
          · rw [if_pos hb15] at h
            have hx := ih _ _ _ h
            exact hx
          rw [if_neg hb15] at h
          by_cases hb16 : (ch == ')') = true
          · rw [if_pos hb16] at h
            rw [beq_iff_eq] at hb16
            subst hb16
            simp only [if_neg (show ¬ ((')' : Char) = '\n') from by decide)] at h
            repeat' split at h
            all_goals first
              | simp [lexErr] at h
              | (have hx := ih _ _ _ h
                 exact hx)
              | (rename_i hab; exact absurd hab (by decide))
          rw [if_neg hb16] at h
          by_cases hb17 : (ch == '[') = true
          · rw [if_pos hb17] at h
            have hx := ih _ _ _ h
            exact hx
          rw [if_neg hb17] at h
          by_cases hb18 : (ch == ']') = true
          · rw [if_pos hb18] at h
            rw [beq_iff_eq] at hb18
            subst hb18
            simp only [if_neg (show ¬ ((']' : Char) = '\n') from by decide)] at h
            repeat' split at h
            all_goals first
              | simp [lexErr] at h
              | (have hx := ih _ _ _ h
                 exact hx)
              | (rename_i hab; exact absurd hab (by decide))
          rw [if_neg hb18] at h
          by_cases hb19 : (ch == ' ') = true
          · rw [if_pos hb19] at h
            have hx := ih _ _ _ h
            exact hx
          rw [if_neg hb19] at h
          simp [lexErr] at h

theorem classifyWord_ne_newline (w : List Char) (l c : Nat) (l2 c2 : Nat) :
    classifyWord w l c ≠ .newline l2 c2 := by
  intro h
  unfold classifyWord at h
  by_cases h1 : w = ['i', 'f']
  · rw [if_pos h1] at h; exact Tok.noConfusion h
  rw [if_neg h1] at h
  by_cases h2 : w = ['e', 'l', 'i', 'f']
  · rw [if_pos h2] at h; exact Tok.noConfusion h
  rw [if_neg h2] at h
  by_cases h3 : w = ['e', 'l', 's', 'e']
  · rw [if_pos h3] at h; exact Tok.noConfusion h
  rw [if_neg h3] at h
  by_cases h4 : w = ['w', 'h', 'i', 'l', 'e']
  · rw [if_pos h4] at h; exact Tok.noConfusion h
  rw [if_neg h4] at h
  by_cases h5 : w = ['c', 'o', 'n', 't', 'i', 'n', 'u', 'e']
  · rw [if_pos h5] at h; exact Tok.noConfusion h
  rw [if_neg h5] at h
  by_cases h6 : w = ['b', 'r', 'e', 'a', 'k']
  · rw [if_pos h6] at h; exact Tok.noConfusion h
  rw [if_neg h6] at h
  by_cases h7 : w = ['l', 'i', 's', 't']
  · rw [if_pos h7] at h; exact Tok.noConfusion h
  rw [if_neg h7] at h
  by_cases h8 : w = ['a', 'p', 'p', 'e', 'n', 'd']
  · rw [if_pos h8] at h; exact Tok.noConfusion h
  rw [if_neg h8] at h
  by_cases h9 : w = ['p', 'r', 'i', 'n', 't']
  · rw [if_pos h9] at h; exact Tok.noConfusion h
  rw [if_neg h9] at h
  by_cases h10 : w = ['a', 'n', 'd']
  · rw [if_pos h10] at h; exact Tok.noConfusion h
  rw [if_neg h10] at h
  by_cases h11 : w = ['o', 'r']
  · rw [if_pos h11] at h; exact Tok.noConfusion h
  rw [if_neg h11] at h
  by_cases h12 : w = ['n', 'o', 't']
  · rw [if_pos h12] at h; exact Tok.noConfusion h
  rw [if_neg h12] at h
  by_cases h13 : w = ['T', 'r', 'u', 'e']
  · rw [if_pos h13] at h; exact Tok.noConfusion h
  rw [if_neg h13] at h
  by_cases h14 : w = ['F', 'a', 'l', 's', 'e']
  · rw [if_pos h14] at h; exact Tok.noConfusion h
  rw [if_neg h14] at h
  exact Tok.noConfusion h

theorem newline_inv_cons (t : Tok) (r : List Tok)
    (ht : ∀ l2 c2, t ≠ Tok.newline l2 c2)
    (hr : ∀ l c, Tok.newline l c ∈ r → c = 0) :
    ∀ l c, Tok.newline l c ∈ t :: r → c = 0 := by
  intro l c hm
  rcases List.mem_cons.mp hm with h2 | h2
  · exact absurd h2.symm (ht l c)
  · exact hr l c h2

theorem newline_inv_cons_zero (lz : Nat) (r : List Tok)
    (hr : ∀ l c, Tok.newline l c ∈ r → c = 0) :
    ∀ l c, Tok.newline l c ∈ Tok.newline lz 0 :: r → c = 0 := by
  intro l c hm
  rcases List.mem_cons.mp hm with h2 | h2
  · simp at h2
    exact h2.2
  · exact hr l c h2

theorem mem_popDedents_res (nT line col : Nat) : ∀ (stk : List Nat) (acc : List Tok) (t : Tok),
    t ∈ (popDedents nT line col stk acc).2 → t ∈ acc ∨ t = .indentation false line col := by
  intro stk
  induction stk with
  | nil =>
    intro acc t ht
    simp only [popDedents] at ht
    exact Or.inl ht
  | cons a rest ih =>
    intro acc t ht
    by_cases hlt : nT < a
    · rw [popDedents, if_pos hlt] at ht
      rcases ih _ t ht with h | h
      · rcases List.mem_cons.mp h with h2 | h2
        · exact Or.inr h2
        · exact Or.inl h2
      · exact Or.inr h
    · rw [popDedents, if_neg hlt] at ht
      exact Or.inl ht

theorem mem_drainDedents (line col : Nat) : ∀ (stk : List Nat) (t : Tok),
    t ∈ drainDedents line col stk → t = .indentation false line col := by
  intro stk
  induction stk with
  | nil => intro t ht; simp [drainDedents] at ht
  | cons a rest ih =>
    intro t ht
    cases rest with
    | nil => simp [drainDedents] at ht
    | cons b rest2 =>
      rw [drainDedents] at ht
      rcases List.mem_cons.mp ht with h | h
      · exact h
      · exact ih t h

theorem indentHandle_newline_inv (ch : Char) (line col : Nat) (st stI : LexSt)
    (h : indentHandle ch line col st = .ok stI)
    (hres : ∀ l c, Tok.newline l c ∈ st.res → c = 0) :
    ∀ l c, Tok.newline l c ∈ stI.res → c = 0 := by
  simp only [indentHandle] at h
  split at h
  · split at h
    · exact absurd h (by simp)
    · rename_i top tl heq
      split at h
      · simp only [Except.ok.injEq] at h
        subst h
        intro l c hm
        rcases List.mem_cons.mp hm with h2 | h2
        · exact Tok.noConfusion h2
        · exact hres l c h2
      · split at h
        · split at h
          · exact absurd h (by simp)
          · rename_i top2 rest2 heq2
            split at h
            · exact absurd h (by simp [indErr])
            · simp only [Except.ok.injEq] at h
              subst h
              intro l c hm
              have hm2 : Tok.newline l c ∈
                  (popDedents st.nT line col st.indentStack st.res).2 := hm
              rcases mem_popDedents_res st.nT line col st.indentStack st.res _ hm2 with
                h2 | h2
              · exact hres l c h2
              · exact Tok.noConfusion h2
        · simp only [Except.ok.injEq] at h
          subst h
          exact hres
  · split at h
    · simp only [Except.ok.injEq] at h
      subst h
      exact hres
    · simp only [Except.ok.injEq] at h
      subst h
      exact hres

theorem lexLoop_newline_col : ∀ (fuel : Nat) (st : LexSt) (cs : List Char) (toks : List Tok),
    lexLoop fuel st cs = .ok toks →
    '\x0d' ∉ cs →
    (∀ l c, Tok.newline l c ∈ st.res → c = 0) →
    ∀ l c, Tok.newline l c ∈ toks → c = 0 := by
  intro fuel
  induction fuel with
  | zero => intro st cs toks h _ _; exact absurd h (by simp [lexLoop])
  | succ n ih =>
    intro st cs toks h hcr hres
    cases cs with
    | nil =>
      simp only [lexLoop] at h
      split at h
      · simp only [Except.ok.injEq] at h
        subst h
        intro l c hm
        rw [List.mem_reverse] at hm
        rcases List.mem_cons.mp hm with h2 | h2
        · exact Tok.noConfusion h2
        · rcases List.mem_append.mp h2 with h3 | h3
          · exact Tok.noConfusion (mem_drainDedents st.line st.col st.indentStack _ h3)
          · exact hres l c h3
      · simp [lexErr] at h
    | cons ch rest =>
      have hcr2 : '\x0d' ∉ rest := fun hx => hcr (List.mem_cons_of_mem ch hx)
      have hch : ¬ ch = '\x0d' := fun hx => hcr (by rw [hx]; exact List.mem_cons_self _ _)
      simp only [lexLoop] at h
      by_cases hc1 : ((ch == ' ' || ch == '\t') &&
          (st.res.isEmpty || (headIsNewline st.res && st.indent))) = true
      · rw [if_pos hc1] at h
        exact ih _ _ _ h hcr2 hres
      · rw [if_neg hc1] at h
        split at h
        · simp at h
        · rename_i stI heq
          have hres1 : ∀ l c, Tok.newline l c ∈ stI.res → c = 0 :=
            indentHandle_newline_inv _ _ _ _ _ heq hres
          by_cases hb1 : isLetterCh ch = true
          · rw [if_pos hb1] at h
            have hcr3 : '\x0d' ∉ (takeWhileCh isWordCh rest).2 := fun hx =>
              hcr2 (by rw [← takeWhileCh_append isWordCh rest]; exact List.mem_append_right _ hx)
            exact ih _ _ _ h hcr3 (newline_inv_cons _ _ (fun l2 c2 => classifyWord_ne_newline _ _ _ _ _) hres1)
          rw [if_neg hb1] at h
          by_cases hb2 : isDigit19 ch = true
          · rw [if_pos hb2] at h
            have hcr3 : '\x0d' ∉ (takeWhileCh isDigit09 rest).2 := fun hx =>
              hcr2 (by rw [← takeWhileCh_append isDigit09 rest]; exact List.mem_append_right _ hx)
            exact ih _ _ _ h hcr3 (newline_inv_cons _ _ (fun l2 c2 => by simp) hres1)
          rw [if_neg hb2] at h
          by_cases hb3 : (ch == '\n' || ch == '\x0d') = true
          · rw [if_pos hb3] at h
            have hch2 : ch = '\n' := by
              have h2 := hb3
              simp at h2
              rcases h2 with h2 | h2
              · exact h2
              · exact absurd h2 hch
            subst hch2
            exact ih _ _ _ h hcr2 (newline_inv_cons_zero _ _ hres1)
          rw [if_neg hb3] at h
          by_cases hb4 : (ch == '0') = true
          · rw [if_pos hb4] at h
            rw [beq_iff_eq] at hb4
            subst hb4
            simp only [if_neg (show ¬ (('0' : Char) = '\n') from by decide)] at h
            repeat' split at h
            all_goals first
              | simp [lexErr] at h
              | exact ih _ _ _ h hcr2 hres1
              | exact ih _ _ _ h hcr2 (newline_inv_cons _ _ (fun l2 c2 => by simp) hres1)
              | exact ih _ _ _ h (fun hx => hcr2 (List.mem_cons_of_mem _ hx)) hres1
              | exact ih _ _ _ h (fun hx => hcr2 (List.mem_cons_of_mem _ hx))
                  (newline_inv_cons _ _ (fun l2 c2 => by simp) hres1)
              | (rename_i hab; exact absurd hab (by decide))
          rw [if_neg hb4] at h
          by_cases hb5 : (ch == '=') = true
          · rw [if_pos hb5] at h
            rw [beq_iff_eq] at hb5
            subst hb5
            simp only [if_neg (show ¬ (('=' : Char) = '\n') from by decide)] at h
            repeat' split at h
            all_goals first
              | simp [lexErr] at h
              | exact ih _ _ _ h hcr2 hres1
              | exact ih _ _ _ h hcr2 (newline_inv_cons _ _ (fun l2 c2 => by simp) hres1)
              | exact ih _ _ _ h (fun hx => hcr2 (List.mem_cons_of_mem _ hx)) hres1
              | exact ih _ _ _ h (fun hx => hcr2 (List.mem_cons_of_mem _ hx))
                  (newline_inv_cons _ _ (fun l2 c2 => by simp) hres1)
              | (rename_i hab; exact absurd hab (by decide))
          rw [if_neg hb5] at h
          by_cases hb6 : (ch == '!' && decide (rest.head? = some '=')) = true
          · rw [if_pos hb6] at h
            cases rest with
            | nil => simp at hb6
            | cons r0 rt =>
              have hr0 : r0 = '=' := by
                have h2 := hb6
                simp at h2
                exact h2.2
              subst hr0
              exact ih _ _ _ h (fun hx => hcr2 (List.mem_cons_of_mem _ hx))
                (newline_inv_cons _ _ (fun l2 c2 => by simp) hres1)
          rw [if_neg hb6] at h
          by_cases hb7 : (ch == '<') = true
          · rw [if_pos hb7] at h
            rw [beq_iff_eq] at hb7
            subst hb7
            simp only [if_neg (show ¬ (('<' : Char) = '\n') from by decide)] at h
            repeat' split at h
            all_goals first
              | simp [lexErr] at h
              | exact ih _ _ _ h hcr2 hres1
              | exact ih _ _ _ h hcr2 (newline_inv_cons _ _ (fun l2 c2 => by simp) hres1)
              | exact ih _ _ _ h (fun hx => hcr2 (List.mem_cons_of_mem _ hx)) hres1
              | exact ih _ _ _ h (fun hx => hcr2 (List.mem_cons_of_mem _ hx))
                  (newline_inv_cons _ _ (fun l2 c2 => by simp) hres1)
              | (rename_i hab; exact absurd hab (by decide))
          rw [if_neg hb7] at h
          by_cases hb8 : (ch == '>') = true
          · rw [if_pos hb8] at h
            rw [beq_iff_eq] at hb8
            subst hb8
            simp only [if_neg (show ¬ (('>' : Char) = '\n') from by decide)] at h
            repeat' split at h
            all_goals first
              | simp [lexErr] at h
              | exact ih _ _ _ h hcr2 hres1
              | exact ih _ _ _ h hcr2 (newline_inv_cons _ _ (fun l2 c2 => by simp) hres1)
              | exact ih _ _ _ h (fun hx => hcr2 (List.mem_cons_of_mem _ hx)) hres1
              | exact ih _ _ _ h (fun hx => hcr2 (List.mem_cons_of_mem _ hx))
                  (newline_inv_cons _ _ (fun l2 c2 => by simp) hres1)
              | (rename_i hab; exact absurd hab (by decide))
          rw [if_neg hb8] at h
          by_cases hb9 : (ch == '+') = true
          · rw [if_pos hb9] at h
            first
              | exact ih _ _ _ h hcr2 hres1
              | exact ih _ _ _ h hcr2 (newline_inv_cons _ _ (fun l2 c2 => by simp) hres1)
          rw [if_neg hb9] at h
          by_cases hb10 : (ch == '-') = true
          · rw [if_pos hb10] at h
            first
              | exact ih _ _ _ h hcr2 hres1
              | exact ih _ _ _ h hcr2 (newline_inv_cons _ _ (fun l2 c2 => by simp) hres1)
          rw [if_neg hb10] at h
          by_cases hb11 : (ch == '*') = true
          · rw [if_pos hb11] at h
            first
              | exact ih _ _ _ h hcr2 hres1
              | exact ih _ _ _ h hcr2 (newline_inv_cons _ _ (fun l2 c2 => by simp) hres1)
          rw [if_neg hb11] at h
          by_cases hb12 : (ch == '/') = true
          · rw [if_pos hb12] at h
            rw [beq_iff_eq] at hb12
            subst hb12
            simp only [if_neg (show ¬ (('/' : Char) = '\n') from by decide)] at h
            repeat' split at h
            all_goals first
              | simp [lexErr] at h
              | exact ih _ _ _ h hcr2 hres1
              | exact ih _ _ _ h hcr2 (newline_inv_cons _ _ (fun l2 c2 => by simp) hres1)
              | exact ih _ _ _ h (fun hx => hcr2 (List.mem_cons_of_mem _ hx)) hres1
              | exact ih _ _ _ h (fun hx => hcr2 (List.mem_cons_of_mem _ hx))
                  (newline_inv_cons _ _ (fun l2 c2 => by simp) hres1)
              | (rename_i hab; exact absurd hab (by decide))
          rw [if_neg hb12] at h
          by_cases hb13 : (ch == ':') = true
          · rw [if_pos hb13] at h
            first
              | exact ih _ _ _ h hcr2 hres1
              | exact ih _ _ _ h hcr2 (newline_inv_cons _ _ (fun l2 c2 => by simp) hres1)
          rw [if_neg hb13] at h
          by_cases hb14 : (ch == '.') = true
          · rw [if_pos hb14] at h
            first
              | exact ih _ _ _ h hcr2 hres1
              | exact ih _ _ _ h hcr2 (newline_inv_cons _ _ (fun l2 c2 => by simp) hres1)
          rw [if_neg hb14] at h
          by_cases hb15 : (ch == '(') = true
          · rw [if_pos hb15] at h
            first
              | exact ih _ _ _ h hcr2 hres1
              | exact ih _ _ _ h hcr2 (newline_inv_cons _ _ (fun l2 c2 => by simp) hres1)
          rw [if_neg hb15] at h
          by_cases hb16 : (ch == ')') = true
          · rw [if_pos hb16] at h
            rw [beq_iff_eq] at hb16
            subst hb16
            simp only [if_neg (show ¬ ((')' : Char) = '\n') from by decide)] at h
            repeat' split at h
            all_goals first
              | simp [lexErr] at h
              | exact ih _ _ _ h hcr2 hres1
              | exact ih _ _ _ h hcr2 (newline_inv_cons _ _ (fun l2 c2 => by simp) hres1)
              | exact ih _ _ _ h (fun hx => hcr2 (List.mem_cons_of_mem _ hx)) hres1
              | exact ih _ _ _ h (fun hx => hcr2 (List.mem_cons_of_mem _ hx))
                  (newline_inv_cons _ _ (fun l2 c2 => by simp) hres1)
              | (rename_i hab; exact absurd hab (by decide))
          rw [if_neg hb16] at h
          by_cases hb17 : (ch == '[') = true
          · rw [if_pos hb17] at h
            first
              | exact ih _ _ _ h hcr2 hres1
              | exact ih _ _ _ h hcr2 (newline_inv_cons _ _ (fun l2 c2 => by simp) hres1)
          rw [if_neg hb17] at h
          by_cases hb18 : (ch == ']') = true
          · rw [if_pos hb18] at h
            rw [beq_iff_eq] at hb18
            subst hb18
            simp only [if_neg (show ¬ ((']' : Char) = '\n') from by decide)] at h
            repeat' split at h
            all_goals first
              | simp [lexErr] at h
              | exact ih _ _ _ h hcr2 hres1
              | exact ih _ _ _ h hcr2 (newline_inv_cons _ _ (fun l2 c2 => by simp) hres1)
              | exact ih _ _ _ h (fun hx => hcr2 (List.mem_cons_of_mem _ hx)) hres1
              | exact ih _ _ _ h (fun hx => hcr2 (List.mem_cons_of_mem _ hx))
                  (newline_inv_cons _ _ (fun l2 c2 => by simp) hres1)
              | (rename_i hab; exact absurd hab (by decide))
          rw [if_neg hb18] at h
          by_cases hb19 : (ch == ' ') = true
          · rw [if_pos hb19] at h
            first
              | exact ih _ _ _ h hcr2 hres1
              | exact ih _ _ _ h hcr2 (newline_inv_cons _ _ (fun l2 c2 => by simp) hres1)
          rw [if_neg hb19] at h
          simp [lexErr] at h

/-- C4 (amended): the stored positions do not reproduce 0-based
first-byte columns.  Lexer::getChar increments the 1-based column
counter as each character is consumed and a token is stamped with the
counters only after all of its characters have been consumed, so the
one-letter file x stores IdToken(line 1, column 1) where the claim
requires column 0 (the counterexample).  What holds for every
successfully tokenized file is: the token list ends with an EndOfFile
token stamped with exactly the counter state after the whole file is
consumed — the fold of the getChar update over every character, i.e.
line 1 plus the number of LF characters and column the number of
characters after the last LF — and, in a file containing no CR
character, every NewLine token is stamped with column 0, the line
counter having already advanced to the next line. -/
theorem c4am : ∀ (s : String) (toks : List Tok), lexFile s = .ok toks →
    (∃ pre, toks = pre ++ [Tok.eof (lineAfter 1 s.data) (colAfter 0 s.data)]) ∧
    ('\x0d' ∉ s.data → ∀ l c, Tok.newline l c ∈ toks → c = 0) := by
  intro s toks h
  have h2 : lexLoop (s.data.length + 1) initLexSt s.data = .ok toks := h
  constructor
  · exact lexLoop_eofStamp _ _ _ _ h2
  · intro hcr
    exact lexLoop_newline_col _ _ _ _ h2 hcr
      (fun l c hm => absurd hm (List.not_mem_nil _))

/-- Witness for C4 (amended) at the concrete two-character file x LF:
the token list ends with EndOfFile stamped (2, 0), the fold of the
counter updates over both characters, and the single NewLine token is
stamped with column 0. -/
theorem c4am_witness :
    ((∃ pre, [Tok.id (String.mk ['x']) 1 1, Tok.newline 2 0, Tok.eof 2 0] =
        pre ++ [Tok.eof (lineAfter 1 ['x', '\n']) (colAfter 0 ['x', '\n'])]) ∧
     ('\x0d' ∉ ['x', '\n'] →
        ∀ l c, Tok.newline l c ∈
          [Tok.id (String.mk ['x']) 1 1, Tok.newline 2 0, Tok.eof 2 0] → c = 0)) :=
  c4am (String.mk ['x', '\n']) _ (by rfl)

/-- C5: indexed list read.  With id bound to a list xs and the index
expression evaluating to the integer ii, an out-of-range ii raises
SemanticError "List index out of bounds" at the node position (not
IndexError), and an in-range ii yields the stored element. -/
theorem c5 : ∀ (m : Nat) (st : SymTab) (idv : String) (xs : List Value) (idxE : Expr)
    (ii : Int) (line col : Nat),
    lookupA st.lists idv = some xs →
    evalCore m st (.ev idxE) = .ok (.val (.i ii)) →
    ((ii < 0 ∨ (xs.length : Int) ≤ ii) →
       evalCore (m + 1) st (.ev (.elemE idv idxE line col)) =
         .error (.err ⟨.SEMANTIC_ERROR, line, col, "List index out of bounds"⟩)) ∧
    (0 ≤ ii → ii < (xs.length : Int) →
       evalCore (m + 1) st (.ev (.elemE idv idxE line col)) =
         .ok (.val (xs.getD ii.toNat (.i 0)))) := by
  intro m st idv xs idxE ii line col hl hidx
  constructor
  · intro hout
    by_cases hlt : ii < 0
    · simp [evalCore, hidx, hl, SymTab.isListDefined, Value.ty, getIntValueE, hlt, semErr]
    · have hge : (xs.length : Int) ≤ ii := by
        rcases hout with h | h
        · exact absurd h hlt
        · exact h
      simp [evalCore, hidx, hl, SymTab.isListDefined, Value.ty, getIntValueE, hlt,
            getListSizeV, SymTab.getListSize, hge, semErr]
  · intro h0 hltlen
    have hlt : ¬(ii < 0) := by omega
    have hnle : ¬((xs.length : Int) ≤ ii) := by omega
    simp [evalCore, hidx, hl, SymTab.isListDefined, Value.ty, getIntValueE, hlt, hnle,
          getListSizeV, SymTab.getListSize, getListElementV, SymTab.getListElement]

/-- C6: list declaration id = list().  When id is already defined as a
scalar or a list, visitListDeclarationStatement raises SemanticError and
the state (hence the symbol table) is unchanged; otherwise an empty list
is bound to id. -/
theorem c6 : ∀ (m : Nat) (st : EvalSt) (idv : String) (line col : Nat),
    (isAlreadyDefined st.tab idv = true →
      exec (m + 1) st (.stmt (.listDecl idv line col)) =
        .error (.err ⟨.SEMANTIC_ERROR, line, col, "Identifier is already defined"⟩)) ∧
    (isAlreadyDefined st.tab idv = false →
      exec (m + 1) st (.stmt (.listDecl idv line col)) =
        .ok { st with tab := { st.tab with lists := insertA st.tab.lists idv [] } }) := by
  intro m st idv line col
  constructor
  · intro h
    simp [exec, h, semErr]
  · intro h
    have hld : st.tab.isListDefined idv = false := by
      simp [isAlreadyDefined] at h
      exact h.2
    simp [exec, h, SymTab.addList, hld]

theorem lookupA_insertA {α : Type} (m : List (String × α)) (k k2 : String) (v : α) :
    lookupA (insertA m k v) k2 = if k = k2 then some v else lookupA m k2 := by
  induction m with
  | nil => simp [insertA, lookupA]
  | cons p rest ih =>
    obtain ⟨k1, w⟩ := p
    by_cases h1 : k1 = k
    · subst h1
      simp only [insertA, if_pos rfl, lookupA]
      split_ifs <;> simp_all [lookupA]
    · simp only [insertA, if_neg h1, lookupA, ih]
      split_ifs <;> simp_all

theorem lookupA_eq_none_iff {α : Type} (m : List (String × α)) (k : String) :
    lookupA m k = none ↔ k ∉ m.map Prod.fst := by
  induction m with
  | nil => simp [lookupA]
  | cons p rest ih =>
    obtain ⟨k1, w⟩ := p
    by_cases h1 : k1 = k
    · subst h1
      simp [lookupA]
    · simp [lookupA, h1, ih]
      intro hk
      exact fun hh => h1 hh.symm

theorem lookupA_eraseA_ne {α : Type} (m : List (String × α)) (k k2 : String) (h : k2 ≠ k) :
    lookupA (eraseA m k) k2 = lookupA m k2 := by
  induction m with
  | nil => simp [eraseA]
  | cons p rest ih =>
    obtain ⟨k1, w⟩ := p
    by_cases h1 : k1 = k
    · subst h1
      have h2 : ¬ k1 = k2 := fun hh => h hh.symm
      simp [eraseA, lookupA, h2]
    · simp only [eraseA, if_neg h1, lookupA, ih]

theorem mem_eraseA_sub {α : Type} (m : List (String × α)) (k : String) (p : String × α)
    (h : p ∈ eraseA m k) : p ∈ m := by
  induction m with
  | nil => simp [eraseA] at h
  | cons q rest ih =>
    obtain ⟨k1, w⟩ := q
    by_cases h1 : k1 = k
    · subst h1
      simp only [eraseA, if_pos rfl] at h
      exact List.mem_cons_of_mem _ h
    · simp only [eraseA, if_neg h1] at h
      rcases List.mem_cons.mp h with hh | hh
      · exact hh ▸ List.mem_cons_self _ _
      · exact List.mem_cons_of_mem _ (ih hh)

theorem keys_mem_insertA {α : Type} (m : List (String × α)) (k : String) (v : α) (k1 : String)
    (h : k1 ∈ (insertA m k v).map Prod.fst) : k1 ∈ m.map Prod.fst ∨ k1 = k := by
  induction m with
  | nil =>
    simp [insertA] at h
    exact Or.inr h
  | cons q rest ih =>
    obtain ⟨k2, w⟩ := q
    by_cases h2 : k2 = k
    · subst h2
      simp only [insertA, eq_self_iff_true, if_true, List.map_cons, List.mem_cons] at h
      rcases h with hh | hh
      · exact Or.inl (by simp [hh])
      · exact Or.inl (List.mem_cons_of_mem _ hh)
    · simp only [insertA, if_neg h2, List.map_cons, List.mem_cons] at h
      rcases h with hh | hh
      · exact Or.inl (by simp [hh])
      · rcases ih hh with hh2 | hh2
        · exact Or.inl (by simp at hh2 ⊢; exact Or.inr hh2)
        · exact Or.inr hh2

theorem lookupA_eraseA_self {α : Type} (m : List (String × α)) (k : String)
    (hnd : (m.map Prod.fst).Nodup) : lookupA (eraseA m k) k = none := by
  induction m with
  | nil => simp [eraseA, lookupA]
  | cons p rest ih =>
    obtain ⟨k1, w⟩ := p
    simp only [List.map_cons, List.nodup_cons] at hnd
    by_cases h1 : k1 = k
    · subst h1
      simp only [eraseA, if_pos rfl]
      rw [lookupA_eq_none_iff]
      exact hnd.1
    · simp only [eraseA, if_neg h1, lookupA, if_neg h1, ih hnd.2]

theorem nodup_insertA {α : Type} (m : List (String × α)) (k : String) (v : α)
    (hnd : (m.map Prod.fst).Nodup) : ((insertA m k v).map Prod.fst).Nodup := by
  induction m with
  | nil => simp [insertA]
  | cons p rest ih =>
    obtain ⟨k1, w⟩ := p
    simp only [List.map_cons, List.nodup_cons] at hnd
    by_cases h1 : k1 = k
    · subst h1
      simp only [insertA, eq_self_iff_true, if_true, List.map_cons, List.nodup_cons]
      exact ⟨hnd.1, hnd.2⟩
    · simp only [insertA, if_neg h1, List.map_cons, List.nodup_cons]
      constructor
      · intro hmem
        rcases keys_mem_insertA rest k v k1 hmem with hh | hh
        · exact hnd.1 hh
        · exact h1 hh
      · exact ih hnd.2

theorem nodup_eraseA {α : Type} (m : List (String × α)) (k : String)
    (hnd : (m.map Prod.fst).Nodup) : ((eraseA m k).map Prod.fst).Nodup := by
  induction m with
  | nil => simp [eraseA]
  | cons p rest ih =>
    obtain ⟨k1, w⟩ := p
    simp only [List.map_cons, List.nodup_cons] at hnd
    by_cases h1 : k1 = k
    · subst h1
      simp [eraseA, hnd.2]
    · simp only [eraseA, if_neg h1, List.map_cons, List.nodup_cons]
      refine ⟨?_, ih hnd.2⟩
      intro hmem
      rcases List.mem_map.mp hmem with ⟨⟨k3, v3⟩, hmem3, hk3⟩
      subst hk3
      exact hnd.1 (List.mem_map.mpr ⟨_, mem_eraseA_sub rest k _ hmem3, rfl⟩)

theorem inv_updateVariableInt (t : SymTab) (idv : String) (n : Int) (t' : SymTab)
    (hInv : TableInv t) (h : t.updateVariableInt idv n = .ok t') : TableInv t' := by
  obtain ⟨hndI, hndB, hndL, hPt⟩ := hInv
  unfold SymTab.updateVariableInt at h
  split_ifs at h with h1 h2
  · injection h with h3
    subst h3
    refine ⟨nodup_insertA _ _ _ hndI, hndB, hndL, fun k => ⟨?_, (hPt k).2⟩⟩
    intro hk
    simp only [lookupA_insertA] at hk
    by_cases hik : idv = k
    · subst hik
      exact (hPt idv).1 h1
    · rw [if_neg hik] at hk
      exact (hPt k).1 hk
  · injection h with h3
    subst h3
    refine ⟨nodup_insertA _ _ _ hndI, nodup_eraseA _ _ hndB, hndL, fun k => ⟨?_, ?_⟩⟩
    · intro hk
      simp only [lookupA_insertA] at hk
      by_cases hik : idv = k
      · subst hik
        exact ⟨lookupA_eraseA_self _ _ hndB, (hPt idv).2 h2⟩
      · rw [if_neg hik] at hk
        refine ⟨?_, ((hPt k).1 hk).2⟩
        rw [lookupA_eraseA_ne _ _ _ (fun hh => hik hh.symm)]
        exact ((hPt k).1 hk).1
    · intro hk
      by_cases hik : k = idv
      · subst hik
        rw [lookupA_eraseA_self _ _ hndB] at hk
        simp at hk
      · rw [lookupA_eraseA_ne _ _ _ hik] at hk
        exact (hPt k).2 hk
  · simp [intErr] at h

theorem inv_updateVariableBool (t : SymTab) (idv : String) (bv : Bool) (t' : SymTab)
    (hInv : TableInv t) (h : t.updateVariableBool idv bv = .ok t') : TableInv t' := by
  obtain ⟨hndI, hndB, hndL, hPt⟩ := hInv
  unfold SymTab.updateVariableBool at h
  split_ifs at h with h1 h2
  · injection h with h3
    subst h3
    refine ⟨hndI, nodup_insertA _ _ _ hndB, hndL, fun k => ⟨?_, ?_⟩⟩
    · intro hk
      refine ⟨?_, ((hPt k).1 hk).2⟩
      simp only [lookupA_insertA]
      by_cases hik : idv = k
      · subst hik
        have hcon := ((hPt idv).1 hk).1
        rw [hcon] at h1
        simp at h1
      · rw [if_neg hik]
        exact ((hPt k).1 hk).1
    · intro hk
      simp only [lookupA_insertA] at hk
      by_cases hik : idv = k
      · subst hik
        exact (hPt idv).2 h1
      · rw [if_neg hik] at hk
        exact (hPt k).2 hk
  · injection h with h3
    subst h3
    refine ⟨nodup_eraseA _ _ hndI, nodup_insertA _ _ _ hndB, hndL, fun k => ⟨?_, ?_⟩⟩
    · intro hk
      by_cases hik : k = idv
      · subst hik
        rw [lookupA_eraseA_self _ _ hndI] at hk
        simp at hk
      · rw [lookupA_eraseA_ne _ _ _ hik] at hk
        refine ⟨?_, ((hPt k).1 hk).2⟩
        simp only [lookupA_insertA]
        rw [if_neg (fun hh => hik hh.symm)]
        exact ((hPt k).1 hk).1
    · intro hk
      simp only [lookupA_insertA] at hk
      by_cases hik : idv = k
      · subst hik
        exact (hPt idv).1 h2 |>.2
      · rw [if_neg hik] at hk
        exact (hPt k).2 hk
  · simp [intErr] at h

theorem inv_updateVariableV (t : SymTab) (idv : String) (v : Value) (t' : SymTab)
    (hInv : TableInv t) (h : updateVariableV t idv v = .ok t') : TableInv t' := by
  cases v with
  | i n => exact inv_updateVariableInt t idv n t' hInv h
  | b bv => exact inv_updateVariableBool t idv bv t' hInv h

theorem inv_addVariableV (t : SymTab) (idv : String) (v : Value) (t' : SymTab)
    (hInv : TableInv t) (hlist : lookupA t.lists idv = none)
    (h : addVariableV t idv v = .ok t') : TableInv t' := by
  obtain ⟨hndI, hndB, hndL, hPt⟩ := hInv
  cases v with
  | i n =>
    unfold addVariableV SymTab.addVariableInt at h
    split_ifs at h with h1
    · simp [intErr] at h
    · injection h with h3
      subst h3
      have hbool : lookupA t.boolVars idv = none := by
        cases hx : lookupA t.boolVars idv with
        | none => rfl
        | some w => exact absurd (by simp [SymTab.isVariableDefined, hx]) h1
      refine ⟨nodup_insertA _ _ _ hndI, hndB, hndL, fun k => ⟨?_, (hPt k).2⟩⟩
      intro hk
      simp only [lookupA_insertA] at hk
      by_cases hik : idv = k
      · subst hik
        exact ⟨hbool, hlist⟩
      · rw [if_neg hik] at hk
        exact (hPt k).1 hk
  | b bv =>
    unfold addVariableV SymTab.addVariableBool at h
    split_ifs at h with h1
    · simp [intErr] at h
    · injection h with h3
      subst h3
      have hint : lookupA t.intVars idv = none := by
        cases hx : lookupA t.intVars idv with
        | none => rfl
        | some w => exact absurd (by simp [SymTab.isVariableDefined, hx]) h1
      refine ⟨hndI, nodup_insertA _ _ _ hndB, hndL, fun k => ⟨?_, ?_⟩⟩
      · intro hk
        refine ⟨?_, ((hPt k).1 hk).2⟩
        simp only [lookupA_insertA]
        by_cases hik : idv = k
        · subst hik
          rw [hint] at hk
          simp at hk
        · rw [if_neg hik]
          exact ((hPt k).1 hk).1
      · intro hk
        simp only [lookupA_insertA] at hk
        by_cases hik : idv = k
        · subst hik
          exact hlist
        · rw [if_neg hik] at hk
          exact (hPt k).2 hk

theorem inv_clearList (t : SymTab) (idv : String) (t' : SymTab)
    (hInv : TableInv t) (h : t.clearList idv = .ok t') : TableInv t' := by
  obtain ⟨hndI, hndB, hndL, hPt⟩ := hInv
  unfold SymTab.clearList at h
  split_ifs at h with h1
  · injection h with h3
    subst h3
    refine ⟨hndI, hndB, nodup_eraseA _ _ hndL, fun k => ⟨?_, ?_⟩⟩
    · intro hk
      refine ⟨((hPt k).1 hk).1, ?_⟩
      by_cases hik : k = idv
      · subst hik
        exact lookupA_eraseA_self _ _ hndL
      · rw [lookupA_eraseA_ne _ _ _ hik]
        exact ((hPt k).1 hk).2
    · intro hk
      by_cases hik : k = idv
      · subst hik
        exact lookupA_eraseA_self _ _ hndL
      · rw [lookupA_eraseA_ne _ _ _ hik]
        exact (hPt k).2 hk
  · simp [intErr] at h

theorem inv_addList (t : SymTab) (idv : String)
    (hInv : TableInv t) (hdef : isAlreadyDefined t idv = false) :
    TableInv (t.addList idv) := by
  obtain ⟨hndI, hndB, hndL, hPt⟩ := hInv
  simp only [isAlreadyDefined, Bool.or_eq_false_iff] at hdef
  obtain ⟨hvar, hlist⟩ := hdef
  have hint : lookupA t.intVars idv = none := by
    cases hx : lookupA t.intVars idv with
    | none => rfl
    | some w => simp [SymTab.isVariableDefined, hx] at hvar
  have hbool : lookupA t.boolVars idv = none := by
    cases hx : lookupA t.boolVars idv with
    | none => rfl
    | some w => simp [SymTab.isVariableDefined, hx] at hvar
  have hlist2 : lookupA t.lists idv = none := by
    cases hx : lookupA t.lists idv with
    | none => rfl
    | some w => simp [SymTab.isListDefined, hx] at hlist
  unfold SymTab.addList
  rw [if_neg (by simp [SymTab.isListDefined, hlist2])]
  refine ⟨hndI, hndB, nodup_insertA _ _ _ hndL, fun k => ⟨?_, ?_⟩⟩
  · intro hk
    refine ⟨((hPt k).1 hk).1, ?_⟩
    simp only [lookupA_insertA]
    by_cases hik : idv = k
    · subst hik
      rw [hint] at hk
      simp at hk
    · rw [if_neg hik]
      exact ((hPt k).1 hk).2
  · intro hk
    simp only [lookupA_insertA]
    by_cases hik : idv = k
    · subst hik
      rw [hbool] at hk
      simp at hk
    · rw [if_neg hik]
      exact (hPt k).2 hk

theorem inv_appendToList (t : SymTab) (idv : String) (v : Value) (t' : SymTab)
    (hInv : TableInv t) (h : t.appendToList idv v = .ok t') : TableInv t' := by
  obtain ⟨hndI, hndB, hndL, hPt⟩ := hInv
  unfold SymTab.appendToList at h
  cases hl : lookupA t.lists idv with
  | none =>
    rw [hl] at h
    simp [intErr] at h
  | some xs =>
    rw [hl] at h
    simp only [Except.ok.injEq] at h
    subst h
    refine ⟨hndI, hndB, nodup_insertA _ _ _ hndL, fun k => ⟨?_, ?_⟩⟩
    · intro hk
      refine ⟨((hPt k).1 hk).1, ?_⟩
      simp only [lookupA_insertA]
      by_cases hik : idv = k
      · subst hik
        exact absurd hl (by rw [((hPt idv).1 hk).2]; simp)
      · rw [if_neg hik]
        exact ((hPt k).1 hk).2
    · intro hk
      simp only [lookupA_insertA]
      by_cases hik : idv = k
      · subst hik
        exact absurd hl (by rw [(hPt idv).2 hk]; simp)
      · rw [if_neg hik]
        exact (hPt k).2 hk

theorem inv_updateListElement (t : SymTab) (idv : String) (index : Int) (v : Value) (t' : SymTab)
    (hInv : TableInv t) (h : t.updateListElement idv index v = .ok t') : TableInv t' := by
  obtain ⟨hndI, hndB, hndL, hPt⟩ := hInv
  unfold SymTab.updateListElement at h
  cases hl : lookupA t.lists idv with
  | none =>
    rw [hl] at h
    simp [intErr] at h
  | some xs =>
    rw [hl] at h
    simp only [] at h
    split_ifs at h with h1
    · simp [intErr] at h
    · simp only [Except.ok.injEq] at h
      subst h
      refine ⟨hndI, hndB, nodup_insertA _ _ _ hndL, fun k => ⟨?_, ?_⟩⟩
      · intro hk
        refine ⟨((hPt k).1 hk).1, ?_⟩
        simp only [lookupA_insertA]
        by_cases hik : idv = k
        · subst hik
          exact absurd hl (by rw [((hPt idv).1 hk).2]; simp)
        · rw [if_neg hik]
          exact ((hPt k).1 hk).2
      · intro hk
        simp only [lookupA_insertA]
        by_cases hik : idv = k
        · subst hik
          exact absurd hl (by rw [(hPt idv).2 hk]; simp)
        · rw [if_neg hik]
          exact (hPt k).2 hk

theorem clearList_lookup_none (t : SymTab) (idv : String) (t' : SymTab)
    (hnd : (t.lists.map Prod.fst).Nodup) (h : t.clearList idv = .ok t') :
    lookupA t'.lists idv = none := by
  unfold SymTab.clearList at h
  split_ifs at h with h1
  · injection h with h3
    subst h3
    exact lookupA_eraseA_self _ _ hnd
  · simp [intErr] at h

theorem exec_inv : ∀ fuel st task st',
    TableInv st.tab → exec fuel st task = .ok st' → TableInv st'.tab := by
  intro fuel
  induction fuel with
  | zero =>
    intro st task st' hInv h
    simp [exec] at h
  | succ n ih =>
    intro st task st' hInv h
    cases task with
    | seqStmts l =>
      cases l with
      | nil =>
        simp only [exec] at h
        injection h with hh
        exact hh ▸ hInv
      | cons s rest =>
        simp only [exec] at h
        split at h
        · exact absurd h (by simp)
        · rename_i st1 heq
          exact ih st1 _ st' (ih st _ st1 hInv heq) h
    | ifBlocks1 bs =>
      cases bs with
      | nil =>
        simp only [exec] at h
        injection h with hh
        exact hh ▸ hInv
      | cons b rest =>
        simp only [exec] at h
        split at h
        · exact absurd h (by simp)
        · rename_i st1 heq
          have hst1 : TableInv st1.tab := by
            cases b with
            | simpleB ss l c => exact ih st _ st1 hInv heq
            | elifB c body l cc => exact ih st _ st1 hInv heq
            | elseB body l cc => exact ih st _ st1 hInv heq
          exact ih st1 _ st' hst1 h
    | ifBlocks2 bs =>
      cases bs with
      | nil =>
        simp only [exec] at h
        injection h with hh
        exact hh ▸ hInv
      | cons b rest =>
        simp only [exec] at h
        split at h
        · exact absurd h (by simp)
        · rename_i st1 heq
          have hst1 : TableInv st1.tab := by
            cases b with
            | simpleB ss l c =>
              simp only at heq
              injection heq with hh
              exact hh ▸ hInv
            | elifB c body l cc => exact ih st _ st1 hInv heq
            | elseB body l cc => exact ih st _ st1 hInv heq
          exact ih st1 _ st' hst1 h
    | elifT cond body line col =>
      simp only [exec] at h
      split at h
      · exact absurd h (by simp [intErr])
      · rename_i top rest
        split at h
        · injection h with hh
          exact hh ▸ hInv
        · split at h
          · exact absurd h (by simp)
          · rename_i v heq
            split at h
            · exact absurd h (by simp)
            · rename_i bv heq2
              split at h
              · split at h
                · exact absurd h (by simp)
                · rename_i st2 heq3
                  split at h
                  · exact absurd h (by simp)
                  · rename_i top2 rest2
                    injection h with hh
                    subst hh
                    have hres : TableInv st2.tab := by
                      refine ih _ _ _ ?_ heq3
                      exact hInv
                    exact hres
              · injection h with hh
                exact hh ▸ hInv
          · exact absurd h (by simp)
    | elseT body line col =>
      simp only [exec] at h
      split at h
      · exact absurd h (by simp [intErr])
      · rename_i top rest
        split at h
        · injection h with hh
          exact hh ▸ hInv
        · split at h
          · exact absurd h (by simp)
          · rename_i st2 heq3
            split at h
            · exact absurd h (by simp)
            · rename_i top2 rest2
              injection h with hh
              subst hh
              have hres : TableInv st2.tab := ih _ _ _ hInv heq3
              exact hres
    | whileIter cond blocks line col =>
      simp only [exec] at h
      split at h
      · exact absurd h (by simp)
      · rename_i v heq
        split at h
        · exact absurd h (by simp [semErr])
        · split at h
          · exact absurd h (by simp)
          · rename_i bv heq2
            split at h
            · injection h with hh
              exact hh ▸ hInv
            · split at h
              · exact absurd h (by simp)
              · rename_i active rest
                split at h
                · injection h with hh
                  exact hh ▸ hInv
                · split at h
                  · rename_i b hb
                    split at h
                    · rename_i ss lb cb
                      split at h
                      · exact absurd h (by simp)
                      · rename_i st1 heq3
                        exact ih st1 _ st' (ih st _ st1 hInv heq3) h
                    · exact absurd h (by simp)
                  · exact absurd h (by simp [semErr])
      · exact absurd h (by simp)
    | whileBody l =>
      cases l with
      | nil =>
        simp only [exec] at h
        injection h with hh
        exact hh ▸ hInv
      | cons s rest =>
        simp only [exec] at h
        split at h
        · split at h
          · exact absurd h (by simp)
          · rename_i top rest2
            injection h with hh
            exact hh ▸ hInv
        · exact ih _ _ _ hInv h
        · split at h
          · exact absurd h (by simp)
          · rename_i st1 heq
            exact ih st1 _ st' (ih st _ st1 hInv heq) h
    | stmt s =>
      cases s with
      | brk line col =>
        simp only [exec] at h
        split at h
        · exact absurd h (by simp [semErr])
        · rename_i top rest
          injection h with hh
          exact hh ▸ hInv
      | cont line col =>
        simp only [exec] at h
        split at h
        · exact absurd h (by simp [semErr])
        · injection h with hh
          exact hh ▸ hInv
      | print e line col =>
        simp only [exec] at h
        split at h
        · exact absurd h (by simp)
        · rename_i v heq
          split at h
          · rename_i nval
            injection h with hh
            exact hh ▸ hInv
          · rename_i bval
            injection h with hh
            exact hh ▸ hInv
        · exact absurd h (by simp)
      | listDecl idv line col =>
        simp only [exec] at h
        split_ifs at h with h1
        · exact absurd h (by simp [semErr])
        · injection h with hh
          subst hh
          exact inv_addList st.tab idv hInv (by simpa using h1)
      | listApp idv e line col =>
        simp only [exec] at h
        split_ifs at h with h1
        · exact absurd h (by simp [semErr])
        · split at h
          · exact absurd h (by simp)
          · rename_i v heq
            split at h
            · exact absurd h (by simp)
            · rename_i tab1 heq2
              injection h with hh
              subst hh
              exact inv_appendToList st.tab idv v tab1 hInv heq2
          · exact absurd h (by simp)
      | assign loc e line col =>
        simp only [exec] at h
        split at h
        · exact absurd h (by simp)
        · rename_i v heq
          cases loc with
          | idL idv li ci =>
            simp only at h
            split_ifs at h with h1 h2 h3
            · split at h
              · exact absurd h (by simp)
              · rename_i tab1 heq2
                injection h with hh
                subst hh
                exact inv_updateVariableV st.tab idv v tab1 hInv heq2
            · split at h
              · exact absurd h (by simp)
              · rename_i tab1 heq2
                split at h
                · exact absurd h (by simp)
                · rename_i tab2 heq3
                  injection h with hh
                  subst hh
                  have hInv1 : TableInv tab1 := inv_clearList st.tab idv tab1 hInv heq2
                  have hnone : lookupA tab1.lists idv = none :=
                    clearList_lookup_none st.tab idv tab1 hInv.2.2.1 heq2
                  exact inv_addVariableV tab1 idv v tab2 hInv1 hnone heq3
            · split at h
              · exact absurd h (by simp)
              · rename_i tab1 heq2
                injection h with hh
                subst hh
                have hnone : lookupA st.tab.lists idv = none := by
                  simp only [isAlreadyDefined, Bool.or_eq_false_iff] at h3
                  cases hx : lookupA st.tab.lists idv with
                  | none => rfl
                  | some w =>
                    exfalso
                    have hcopy := h3
                    simp [SymTab.isListDefined, hx] at hcopy
                exact inv_addVariableV st.tab idv v tab1 hInv hnone heq2
            · exact absurd h (by simp [semErr])
          | elemL idv idxE li ci =>
            simp only at h
            split_ifs at h with h1
            · exact absurd h (by simp [semErr])
            · split at h
              · exact absurd h (by simp)
              · rename_i iv heq2
                split_ifs at h with h2
                · exact absurd h (by simp [semErr])
                · split at h
                  · exact absurd h (by simp)
                  · rename_i ii heq3
                    split at h
                    · exact absurd h (by simp)
                    · rename_i tab1 heq4
                      injection h with hh
                      subst hh
                      exact inv_updateListElement st.tab idv ii v tab1 hInv heq4
              · exact absurd h (by simp)
        · exact absurd h (by simp)
      | ifS cond blocks line col =>
        simp only [exec] at h
        split at h
        · exact absurd h (by simp)
        · rename_i v heq
          split_ifs at h with h1
          · exact absurd h (by simp [semErr])
          · split at h
            · exact absurd h (by simp)
            · rename_i bv heq2
              split at h
              · exact absurd h (by simp)
              · rename_i st2 heq3
                split at h
                · exact absurd h (by simp)
                · rename_i st3 heq4
                  split at h
                  · exact absurd h (by simp)
                  · rename_i top rest
                    injection h with hh
                    subst hh
                    have hst2 : TableInv st2.tab := by
                      split at heq3
                      · refine ih _ _ _ ?_ heq3
                        exact hInv
                      · injection heq3 with hh2
                        exact hh2 ▸ hInv
                    have hres : TableInv st3.tab := ih _ _ _ hst2 heq4
                    exact hres
        · exact absurd h (by simp)
      | whileS cond blocks line col =>
        simp only [exec] at h
        split at h
        · exact absurd h (by simp)
        · rename_i st2 heq
          split at h
          · exact absurd h (by simp)
          · rename_i top rest
            injection h with hh
            subst hh
            have hres : TableInv st2.tab := by
              refine ih _ _ _ ?_ heq
              exact hInv
            exact hres

theorem addVariableV_lists (t : SymTab) (idv : String) (v : Value) (t' : SymTab)
    (h : addVariableV t idv v = .ok t') : t'.lists = t.lists := by
  cases v with
  | i n =>
    unfold addVariableV SymTab.addVariableInt at h
    split_ifs at h with h1
    · simp [intErr] at h
    · injection h with hh
      subst hh
      rfl
  | b bv =>
    unfold addVariableV SymTab.addVariableBool at h
    split_ifs at h with h1
    · simp [intErr] at h
    · injection h with hh
      subst hh
      rfl

theorem addVariableV_defined (t : SymTab) (idv : String) (v : Value) (t' : SymTab)
    (h : addVariableV t idv v = .ok t') : t'.isVariableDefined idv = true := by
  cases v with
  | i n =>
    unfold addVariableV SymTab.addVariableInt at h
    split_ifs at h with h1
    · simp [intErr] at h
    · injection h with hh
      subst hh
      simp [SymTab.isVariableDefined, lookupA_insertA]
  | b bv =>
    unfold addVariableV SymTab.addVariableBool at h
    split_ifs at h with h1
    · simp [intErr] at h
    · injection h with hh
      subst hh
      simp [SymTab.isVariableDefined, lookupA_insertA]

/-- C7: single-slot invariant.  Every statement execution preserves the
invariant that a name occupies at most one slot of the symbol table
(key sets of the int, bool and list maps are disjoint and duplicate
free), and a scalar assignment to a name bound as a list removes the
list binding and installs the scalar binding. -/
theorem c7_single_slot :
    (∀ (fuel : Nat) (s : Stmt) (st st' : EvalSt),
        TableInv st.tab → exec fuel st (.stmt s) = .ok st' → TableInv st'.tab) ∧
    (∀ (n : Nat) (st : EvalSt) (idv : String) (e : Expr) (l1 c1 l2 c2 : Nat) (st' : EvalSt),
        TableInv st.tab →
        lookupA st.tab.lists idv ≠ none →
        st.tab.isVariableDefined idv = false →
        exec (n + 1) st (.stmt (.assign (.idL idv l1 c1) e l2 c2)) = .ok st' →
        lookupA st'.tab.lists idv = none ∧ st'.tab.isVariableDefined idv = true) := by
  constructor
  · intro fuel s st st' hInv h
    exact exec_inv fuel st _ st' hInv h
  · intro n st idv e l1 c1 l2 c2 st' hInv hlist hvar h
    simp only [exec] at h
    split at h
    · exact absurd h (by simp)
    · rename_i v heq
      split_ifs at h with h1 h2 h3
      · rw [hvar] at h1
        simp at h1
      · split at h
        · exact absurd h (by simp)
        · rename_i tab1 heq2
          split at h
          · exact absurd h (by simp)
          · rename_i tab2 heq3
            injection h with hh
            subst hh
            constructor
            · rw [addVariableV_lists tab1 idv v tab2 heq3]
              exact clearList_lookup_none st.tab idv tab1 hInv.2.2.1 heq2
            · exact addVariableV_defined tab1 idv v tab2 heq3
      · exfalso
        have hld : st.tab.isListDefined idv = true := by
          cases hx : lookupA st.tab.lists idv with
          | none => exact absurd hx hlist
          | some w => simp [SymTab.isListDefined, hx]
        simp [isAlreadyDefined, hld] at h3
      · exact absurd h (by simp [semErr])
    · exact absurd h (by simp)

theorem indentCount_append (a b : List Tok) :
    indentCount (a ++ b) = indentCount a + indentCount b := by
  induction a with
  | nil => simp [indentCount]
  | cons t rest ih =>
    cases t with
    | indentation bb ll cc => cases bb <;> simp [indentCount, ih] <;> omega
    | number v ll cc => simp [indentCount, ih]
    | bool v ll cc => simp [indentCount, ih]
    | id v ll cc => simp [indentCount, ih]
    | newline ll cc => simp [indentCount, ih]
    | eof ll cc => simp [indentCount, ih]
    | assign ll cc => simp [indentCount, ih]
    | arith o ll cc => simp [indentCount, ih]
    | rel o ll cc => simp [indentCount, ih]
    | boolop o ll cc => simp [indentCount, ih]
    | keyword k ll cc => simp [indentCount, ih]
    | punct p ll cc => simp [indentCount, ih]

theorem dedentCount_append (a b : List Tok) :
    dedentCount (a ++ b) = dedentCount a + dedentCount b := by
  induction a with
  | nil => simp [dedentCount]
  | cons t rest ih =>
    cases t with
    | indentation bb ll cc => cases bb <;> simp [dedentCount, ih] <;> omega
    | number v ll cc => simp [dedentCount, ih]
    | bool v ll cc => simp [dedentCount, ih]
    | id v ll cc => simp [dedentCount, ih]
    | newline ll cc => simp [dedentCount, ih]
    | eof ll cc => simp [dedentCount, ih]
    | assign ll cc => simp [dedentCount, ih]
    | arith o ll cc => simp [dedentCount, ih]
    | rel o ll cc => simp [dedentCount, ih]
    | boolop o ll cc => simp [dedentCount, ih]
    | keyword k ll cc => simp [dedentCount, ih]
    | punct p ll cc => simp [dedentCount, ih]

theorem indentCount_reverse (l : List Tok) : indentCount l.reverse = indentCount l := by
  induction l with
  | nil => rfl
  | cons t rest ih =>
    rw [List.reverse_cons, indentCount_append, ih]
    cases t with
    | indentation bb ll cc => cases bb <;> simp [indentCount]
    | number v ll cc => simp [indentCount]
    | bool v ll cc => simp [indentCount]
    | id v ll cc => simp [indentCount]
    | newline ll cc => simp [indentCount]
    | eof ll cc => simp [indentCount]
    | assign ll cc => simp [indentCount]
    | arith o ll cc => simp [indentCount]
    | rel o ll cc => simp [indentCount]
    | boolop o ll cc => simp [indentCount]
    | keyword k ll cc => simp [indentCount]
    | punct p ll cc => simp [indentCount]

theorem dedentCount_reverse (l : List Tok) : dedentCount l.reverse = dedentCount l := by
  induction l with
  | nil => rfl
  | cons t rest ih =>
    rw [List.reverse_cons, dedentCount_append, ih]
    cases t with
    | indentation bb ll cc => cases bb <;> simp [dedentCount]
    | number v ll cc => simp [dedentCount]
    | bool v ll cc => simp [dedentCount]
    | id v ll cc => simp [dedentCount]
    | newline ll cc => simp [dedentCount]
    | eof ll cc => simp [dedentCount]
    | assign ll cc => simp [dedentCount]
    | arith o ll cc => simp [dedentCount]
    | rel o ll cc => simp [dedentCount]
    | boolop o ll cc => simp [dedentCount]
    | keyword k ll cc => simp [dedentCount]
    | punct p ll cc => simp [dedentCount]

theorem popDedents_spec (nT line col : Nat) : ∀ (stk : List Nat) (acc : List Tok),
    (popDedents nT line col stk acc).1.length + dedentCount (popDedents nT line col stk acc).2 =
      stk.length + dedentCount acc ∧
    indentCount (popDedents nT line col stk acc).2 = indentCount acc := by
  intro stk
  induction stk with
  | nil => intro acc; simp [popDedents]
  | cons top rest ih =>
    intro acc
    by_cases h : nT < top
    · simp only [popDedents, if_pos h]
      rcases ih (.indentation false line col :: acc) with ⟨e1, e2⟩
      rw [e1, e2]
      simp [dedentCount, indentCount]
      omega
    · simp [popDedents, if_neg h]

theorem drainDedents_counts (line col : Nat) : ∀ stk : List Nat,
    indentCount (drainDedents line col stk) = 0 ∧
    dedentCount (drainDedents line col stk) = stk.length - 1 := by
  intro stk
  induction stk with
  | nil => simp [drainDedents, indentCount, dedentCount]
  | cons a rest ih =>
    cases rest with
    | nil => simp [drainDedents, indentCount, dedentCount]
    | cons b rest2 =>
      rcases ih with ⟨i1, i2⟩
      constructor
      · simp [drainDedents, indentCount, i1]
      · simp [drainDedents, dedentCount, i2]

theorem classifyWord_ne_indentation (w : List Char) (l c : Nat) (b : Bool) (l2 c2 : Nat) :
    classifyWord w l c ≠ .indentation b l2 c2 := by
  intro h
  unfold classifyWord at h
  by_cases h1 : w = ['i', 'f']
  · rw [if_pos h1] at h; exact Tok.noConfusion h
  rw [if_neg h1] at h
  by_cases h2 : w = ['e', 'l', 'i', 'f']
  · rw [if_pos h2] at h; exact Tok.noConfusion h
  rw [if_neg h2] at h
  by_cases h3 : w = ['e', 'l', 's', 'e']
  · rw [if_pos h3] at h; exact Tok.noConfusion h
  rw [if_neg h3] at h
  by_cases h4 : w = ['w', 'h', 'i', 'l', 'e']
  · rw [if_pos h4] at h; exact Tok.noConfusion h
  rw [if_neg h4] at h
  by_cases h5 : w = ['c', 'o', 'n', 't', 'i', 'n', 'u', 'e']
  · rw [if_pos h5] at h; exact Tok.noConfusion h
  rw [if_neg h5] at h
  by_cases h6 : w = ['b', 'r', 'e', 'a', 'k']
  · rw [if_pos h6] at h; exact Tok.noConfusion h
  rw [if_neg h6] at h
  by_cases h7 : w = ['l', 'i', 's', 't']
  · rw [if_pos h7] at h; exact Tok.noConfusion h
  rw [if_neg h7] at h
  by_cases h8 : w = ['a', 'p', 'p', 'e', 'n', 'd']
  · rw [if_pos h8] at h; exact Tok.noConfusion h
  rw [if_neg h8] at h
  by_cases h9 : w = ['p', 'r', 'i', 'n', 't']
  · rw [if_pos h9] at h; exact Tok.noConfusion h
  rw [if_neg h9] at h
  by_cases h10 : w = ['a', 'n', 'd']
  · rw [if_pos h10] at h; exact Tok.noConfusion h
  rw [if_neg h10] at h
  by_cases h11 : w = ['o', 'r']
  · rw [if_pos h11] at h; exact Tok.noConfusion h
  rw [if_neg h11] at h
  by_cases h12 : w = ['n', 'o', 't']
  · rw [if_pos h12] at h; exact Tok.noConfusion h
  rw [if_neg h12] at h
  by_cases h13 : w = ['T', 'r', 'u', 'e']
  · rw [if_pos h13] at h; exact Tok.noConfusion h
  rw [if_neg h13] at h
  by_cases h14 : w = ['F', 'a', 'l', 's', 'e']
  · rw [if_pos h14] at h; exact Tok.noConfusion h
  rw [if_neg h14] at h
  exact Tok.noConfusion h

theorem indentCount_cons_of_ne (t : Tok) (r : List Tok)
    (h : ∀ l c, t ≠ .indentation true l c) : indentCount (t :: r) = indentCount r := by
  cases t with
  | indentation bb ll cc =>
    cases bb
    · simp [indentCount]
    · exact absurd rfl (h ll cc)
  | number v ll cc => simp [indentCount]
  | bool v ll cc => simp [indentCount]
  | id v ll cc => simp [indentCount]
  | newline ll cc => simp [indentCount]
  | eof ll cc => simp [indentCount]
  | assign ll cc => simp [indentCount]
  | arith o ll cc => simp [indentCount]
  | rel o ll cc => simp [indentCount]
  | boolop o ll cc => simp [indentCount]
  | keyword k ll cc => simp [indentCount]
  | punct p ll cc => simp [indentCount]

theorem dedentCount_cons_of_ne (t : Tok) (r : List Tok)
    (h : ∀ l c, t ≠ .indentation false l c) : dedentCount (t :: r) = dedentCount r := by
  cases t with
  | indentation bb ll cc =>
    cases bb
    · exact absurd rfl (h ll cc)
    · simp [dedentCount]
  | number v ll cc => simp [dedentCount]
  | bool v ll cc => simp [dedentCount]
  | id v ll cc => simp [dedentCount]
  | newline ll cc => simp [dedentCount]
  | eof ll cc => simp [dedentCount]
  | assign ll cc => simp [dedentCount]
  | arith o ll cc => simp [dedentCount]
  | rel o ll cc => simp [dedentCount]
  | boolop o ll cc => simp [dedentCount]
  | keyword k ll cc => simp [dedentCount]
  | punct p ll cc => simp [dedentCount]

theorem indentCount_classifyWord (w : List Char) (l c : Nat) (r : List Tok) :
    indentCount (classifyWord w l c :: r) = indentCount r :=
  indentCount_cons_of_ne _ _ (fun l2 c2 => classifyWord_ne_indentation w l c true l2 c2)

theorem dedentCount_classifyWord (w : List Char) (l c : Nat) (r : List Tok) :
    dedentCount (classifyWord w l c :: r) = dedentCount r :=
  dedentCount_cons_of_ne _ _ (fun l2 c2 => classifyWord_ne_indentation w l c false l2 c2)

theorem indentHandle_spec (ch : Char) (line col : Nat) (st stI : LexSt)
    (hne : st.indentStack ≠ [])
    (hInv : indentCount st.res + 1 = dedentCount st.res + st.indentStack.length)
    (h : indentHandle ch line col st = .ok stI) :
    stI.indentStack ≠ [] ∧
    indentCount stI.res + 1 = dedentCount stI.res + stI.indentStack.length := by
  simp only [indentHandle] at h
  split at h
  · split at h
    · exact absurd h (by simp)
    · rename_i top tl heq
      split at h
      · simp only [Except.ok.injEq] at h
        subst h
        constructor
        · simp
        · simp [indentCount, dedentCount]
          omega
      · split at h
        · split at h
          · exact absurd h (by simp)
          · rename_i top2 rest2 heq2
            split at h
            · exact absurd h (by simp [indErr])
            · simp only [Except.ok.injEq] at h
              subst h
              have heq2b : (popDedents st.nT line col st.indentStack st.res).1 = top2 :: rest2 := heq2
              have hs1 := (popDedents_spec st.nT line col st.indentStack st.res).1
              have hs2 := (popDedents_spec st.nT line col st.indentStack st.res).2
              rw [heq2b] at hs1
              constructor
              · simp
              · show indentCount (popDedents st.nT line col st.indentStack st.res).2 + 1 =
                  dedentCount (popDedents st.nT line col st.indentStack st.res).2 +
                    (top2 :: rest2).length
                rw [hs2]
                simp only [List.length_cons] at hs1 ⊢
                omega
        · simp only [Except.ok.injEq] at h
          subst h
          exact ⟨hne, hInv⟩
  · split at h
    · simp only [Except.ok.injEq] at h
      subst h
      exact ⟨hne, hInv⟩
    · simp only [Except.ok.injEq] at h
      subst h
      exact ⟨hne, hInv⟩

theorem lexLoop_balance : ∀ (fuel : Nat) (st : LexSt) (cs : List Char) (toks : List Tok),
    st.indentStack ≠ [] →
    indentCount st.res + 1 = dedentCount st.res + st.indentStack.length →
    lexLoop fuel st cs = .ok toks →
    indentCount toks = dedentCount toks := by
  intro fuel
  induction fuel with
  | zero => intro st cs toks _ _ h; exact absurd h (by simp [lexLoop])
  | succ n ih =>
    intro st cs toks hne hInv h
    cases cs with
    | nil =>
      simp only [lexLoop] at h
      split at h
      · simp only [Except.ok.injEq] at h
        subst h
        rw [indentCount_reverse, dedentCount_reverse]
        have hd := drainDedents_counts st.line st.col st.indentStack
        have hlen : 0 < st.indentStack.length := List.length_pos.mpr hne
        show indentCount (drainDedents st.line st.col st.indentStack ++ st.res) =
          dedentCount (drainDedents st.line st.col st.indentStack ++ st.res)
        rw [indentCount_append, dedentCount_append, hd.1, hd.2]
        omega
      · exact absurd h (by simp [lexErr])
    | cons ch rest =>
      simp only [lexLoop] at h
      by_cases hc1 : ((ch == ' ' || ch == '\t') &&
          (st.res.isEmpty || (headIsNewline st.res && st.indent))) = true
      · rw [if_pos hc1] at h
        exact ih _ _ _ (by exact hne) (by exact hInv) h
      · rw [if_neg hc1] at h
        split at h
        · exact absurd h (by simp)
        · rename_i stI heq
          obtain ⟨hne1, hInv1⟩ := indentHandle_spec _ _ _ _ _ hne hInv heq
          by_cases hb1 : isLetterCh ch = true
          · rw [if_pos hb1] at h
            refine ih _ _ _ ?_ ?_ h
            · exact hne1
            · simp only [indentCount_classifyWord, dedentCount_classifyWord]
              exact hInv1
          rw [if_neg hb1] at h
          by_cases hb2 : isDigit19 ch = true
          · rw [if_pos hb2] at h
            repeat' split at h
            all_goals first
              | exact ih _ _ _ (by exact hne1) (by exact hInv1) h
              | simp [lexErr] at h
          rw [if_neg hb2] at h
          by_cases hb3 : (ch == '\n' || ch == '\x0d') = true
          · rw [if_pos hb3] at h
            repeat' split at h
            all_goals first
              | exact ih _ _ _ (by exact hne1) (by exact hInv1) h
              | simp [lexErr] at h
          rw [if_neg hb3] at h
          by_cases hb4 : (ch == '0') = true
          · rw [if_pos hb4] at h
            repeat' split at h
            all_goals first
              | exact ih _ _ _ (by exact hne1) (by exact hInv1) h
              | simp [lexErr] at h
          rw [if_neg hb4] at h
          by_cases hb5 : (ch == '=') = true
          · rw [if_pos hb5] at h
            repeat' split at h
            all_goals first
              | exact ih _ _ _ (by exact hne1) (by exact hInv1) h
              | simp [lexErr] at h
          rw [if_neg hb5] at h
          by_cases hb6 : (ch == '!' && decide (rest.head? = some '=')) = true
          · rw [if_pos hb6] at h
            repeat' split at h
            all_goals first
              | exact ih _ _ _ (by exact hne1) (by exact hInv1) h
              | simp [lexErr] at h
          rw [if_neg hb6] at h
          by_cases hb7 : (ch == '<') = true
          · rw [if_pos hb7] at h
            repeat' split at h
            all_goals first
              | exact ih _ _ _ (by exact hne1) (by exact hInv1) h
              | simp [lexErr] at h
          rw [if_neg hb7] at h
          by_cases hb8 : (ch == '>') = true
          · rw [if_pos hb8] at h
            repeat' split at h
            all_goals first
              | exact ih _ _ _ (by exact hne1) (by exact hInv1) h
              | simp [lexErr] at h
          rw [if_neg hb8] at h
          by_cases hb9 : (ch == '+') = true
          · rw [if_pos hb9] at h
            repeat' split at h
            all_goals first
              | exact ih _ _ _ (by exact hne1) (by exact hInv1) h
              | simp [lexErr] at h
          rw [if_neg hb9] at h
          by_cases hb10 : (ch == '-') = true
          · rw [if_pos hb10] at h
            repeat' split at h
            all_goals first
              | exact ih _ _ _ (by exact hne1) (by exact hInv1) h
              | simp [lexErr] at h
          rw [if_neg hb10] at h
          by_cases hb11 : (ch == '*') = true
          · rw [if_pos hb11] at h
            repeat' split at h
            all_goals first
              | exact ih _ _ _ (by exact hne1) (by exact hInv1) h
              | simp [lexErr] at h
          rw [if_neg hb11] at h
          by_cases hb12 : (ch == '/') = true
          · rw [if_pos hb12] at h
            repeat' split at h
            all_goals first
              | exact ih _ _ _ (by exact hne1) (by exact hInv1) h
              | simp [lexErr] at h
          rw [if_neg hb12] at h
          by_cases hb13 : (ch == ':') = true
          · rw [if_pos hb13] at h
            repeat' split at h
            all_goals first
              | exact ih _ _ _ (by exact hne1) (by exact hInv1) h
              | simp [lexErr] at h
          rw [if_neg hb13] at h
          by_cases hb14 : (ch == '.') = true
          · rw [if_pos hb14] at h
            repeat' split at h
            all_goals first
              | exact ih _ _ _ (by exact hne1) (by exact hInv1) h
              | simp [lexErr] at h
          rw [if_neg hb14] at h
          by_cases hb15 : (ch == '(') = true
          · rw [if_pos hb15] at h
            repeat' split at h
            all_goals first
              | exact ih _ _ _ (by exact hne1) (by exact hInv1) h
              | simp [lexErr] at h
          rw [if_neg hb15] at h
          by_cases hb16 : (ch == ')') = true
          · rw [if_pos hb16] at h
            repeat' split at h
            all_goals first
              | exact ih _ _ _ (by exact hne1) (by exact hInv1) h
              | simp [lexErr] at h
          rw [if_neg hb16] at h
          by_cases hb17 : (ch == '[') = true
          · rw [if_pos hb17] at h
            repeat' split at h
            all_goals first
              | exact ih _ _ _ (by exact hne1) (by exact hInv1) h
              | simp [lexErr] at h
          rw [if_neg hb17] at h
          by_cases hb18 : (ch == ']') = true
          · rw [if_pos hb18] at h
            repeat' split at h
            all_goals first
              | exact ih _ _ _ (by exact hne1) (by exact hInv1) h
              | simp [lexErr] at h
          rw [if_neg hb18] at h
          by_cases hb19 : (ch == ' ') = true
          · rw [if_pos hb19] at h
            repeat' split at h
            all_goals first
              | exact ih _ _ _ (by exact hne1) (by exact hInv1) h
              | simp [lexErr] at h
          rw [if_neg hb19] at h
          exact absurd h (by simp [lexErr])

/-- C8: for every source file that the lexer tokenizes without error, the
number of Indent tokens in the output equals the number of Dedent tokens:
each indent-stack push emits one Indent, each pop emits one Dedent, and the
end-of-file drain emits one Dedent for every stack level beyond the base. -/
theorem c8_indent_dedent_balanced (s : String) (toks : List Tok)
    (h : lexFile s = .ok toks) :
    indentCount toks = dedentCount toks := by
  have h2 : lexLoop (s.data.length + 1) initLexSt s.data = .ok toks := h
  exact lexLoop_balance _ _ _ _ (by simp [initLexSt]) (by rfl) h2

set_option maxRecDepth 10000 in
/-- Witness for C8 on a two-line program with one indented block: the
token list holds one Indent and one Dedent. -/
theorem c8_indent_dedent_balanced_witness :
    indentCount [Tok.keyword .IF 1 2, Tok.bool true 1 7, Tok.punct .COL 1 8,
      Tok.newline 2 0, Tok.indentation true 2 2, Tok.id ⟨['x']⟩ 2 2,
      Tok.assign 2 3, Tok.number 1 2 4, Tok.newline 3 0,
      Tok.indentation false 3 0, Tok.eof 3 0] =
    dedentCount [Tok.keyword .IF 1 2, Tok.bool true 1 7, Tok.punct .COL 1 8,
      Tok.newline 2 0, Tok.indentation true 2 2, Tok.id ⟨['x']⟩ 2 2,
      Tok.assign 2 3, Tok.number 1 2 4, Tok.newline 3 0,
      Tok.indentation false 3 0, Tok.eof 3 0] :=
  c8_indent_dedent_balanced
    ⟨['i', 'f', ' ', 'T', 'r', 'u', 'e', ':', '\n', ' ', 'x', '=', '1', '\n']⟩
    _ (by rfl)

theorem benign_ok {α : Type} {a : α} {f : Fail}
    (h : (Except.ok a : Except Fail α) = .error f) : benignFail f :=
  Except.noConfusion h

theorem benign_err {α : Type} {f0 f : Fail}
    (h : (Except.error f0 : Except Fail α) = .error f) (hb : benignFail f0) :
    benignFail f := by
  injection h with h2
  subst h2
  exact hb

theorem benign_stuck {α : Type} {f : Fail}
    (h : (Except.error Fail.stuck : Except Fail α) = .error f) : benignFail f := by
  injection h with h2
  subst h2
  exact trivial

theorem benign_fuel {α : Type} {f : Fail}
    (h : (Except.error Fail.fuel : Except Fail α) = .error f) : benignFail f := by
  injection h with h2
  subst h2
  exact trivial

theorem benign_lexErr {α : Type} {l c : Nat} {m : String} {f : Fail}
    (h : (lexErr l c m : Except Fail α) = .error f) : benignFail f := by
  simp only [lexErr, Except.error.injEq] at h
  subst h
  simp [benignFail, benignCode]

theorem benign_indErr {α : Type} {l c : Nat} {m : String} {f : Fail}
    (h : (indErr l c m : Except Fail α) = .error f) : benignFail f := by
  simp only [indErr, Except.error.injEq] at h
  subst h
  simp [benignFail, benignCode]

theorem benign_synErr {α : Type} {l c : Nat} {m : String} {f : Fail}
    (h : (synErr l c m : Except Fail α) = .error f) : benignFail f := by
  simp only [synErr, Except.error.injEq] at h
  subst h
  simp [benignFail, benignCode]

theorem benign_intErr {α : Type} {l c : Nat} {m : String} {f : Fail}
    (h : (intErr l c m : Except Fail α) = .error f) : benignFail f := by
  simp only [intErr, Except.error.injEq] at h
  subst h
  simp [benignFail, benignCode]

theorem benign_semErr {α : Type} {l c : Nat} {m : String} {f : Fail}
    (h : (semErr l c m : Except Fail α) = .error f) : benignFail f := by
  simp only [semErr, Except.error.injEq] at h
  subst h
  simp [benignFail, benignCode]

theorem benign_typErr {α : Type} {l c : Nat} {m : String} {f : Fail}
    (h : (typErr l c m : Except Fail α) = .error f) : benignFail f := by
  simp only [typErr, Except.error.injEq] at h
  subst h
  simp [benignFail, benignCode]

theorem benign_zdvErr {α : Type} {l c : Nat} {m : String} {f : Fail}
    (h : (zdvErr l c m : Except Fail α) = .error f) : benignFail f := by
  simp only [zdvErr, Except.error.injEq] at h
  subst h
  simp [benignFail, benignCode]

theorem benign_getBool {v : Value} {f : Fail}
    (h : getBoolValueE v = .error f) : benignFail f := by
  cases v with
  | b bv => exact benign_ok h
  | i n => exact benign_intErr h

theorem benign_getInt {v : Value} {f : Fail}
    (h : getIntValueE v = .error f) : benignFail f := by
  cases v with
  | i n => exact benign_ok h
  | b bv => exact benign_intErr h

theorem benign_getVariableValue {st : SymTab} {idv : String} {f : Fail}
    (h : st.getVariableValue idv = .error f) : benignFail f := by
  unfold SymTab.getVariableValue at h
  repeat' split at h
  all_goals first
    | exact benign_ok h
    | exact benign_intErr h

theorem benign_getVariableValueV {st : SymTab} {idv : String} {l c : Nat} {f : Fail}
    (h : getVariableValueV st idv l c = .error f) : benignFail f := by
  unfold getVariableValueV at h
  split at h
  · exact benign_intErr h
  · exact benign_getVariableValue h

theorem benign_getListElement {st : SymTab} {idv : String} {ix : Int} {f : Fail}
    (h : st.getListElement idv ix = .error f) : benignFail f := by
  unfold SymTab.getListElement at h
  repeat' split at h
  all_goals first
    | exact benign_ok h
    | exact benign_intErr h

theorem benign_getListElementV {st : SymTab} {idv : String} {ix : Int} {l c : Nat} {f : Fail}
    (h : getListElementV st idv ix l c = .error f) : benignFail f := by
  unfold getListElementV at h
  split at h
  · exact benign_intErr h
  · exact benign_getListElement h

theorem benign_getListSize {st : SymTab} {idv : String} {f : Fail}
    (h : st.getListSize idv = .error f) : benignFail f := by
  unfold SymTab.getListSize at h
  repeat' split at h
  all_goals first
    | exact benign_ok h
    | exact benign_intErr h

theorem benign_getListSizeV {st : SymTab} {idv : String} {l c : Nat} {f : Fail}
    (h : getListSizeV st idv l c = .error f) : benignFail f := by
  unfold getListSizeV at h
  split at h
  · exact benign_intErr h
  · exact benign_getListSize h

theorem benign_appendToList {st : SymTab} {idv : String} {v : Value} {f : Fail}
    (h : st.appendToList idv v = .error f) : benignFail f := by
  unfold SymTab.appendToList at h
  repeat' split at h
  all_goals first
    | exact benign_ok h
    | exact benign_intErr h

theorem benign_updateListElement {st : SymTab} {idv : String} {ix : Int} {v : Value} {f : Fail}
    (h : st.updateListElement idv ix v = .error f) : benignFail f := by
  unfold SymTab.updateListElement at h
  repeat' split at h
  all_goals first
    | exact benign_ok h
    | exact benign_intErr h

theorem benign_clearList {st : SymTab} {idv : String} {f : Fail}
    (h : st.clearList idv = .error f) : benignFail f := by
  unfold SymTab.clearList at h
  split at h
  · exact benign_ok h
  · exact benign_intErr h

theorem benign_addVariableV {st : SymTab} {idv : String} {v : Value} {f : Fail}
    (h : addVariableV st idv v = .error f) : benignFail f := by
  unfold addVariableV SymTab.addVariableInt SymTab.addVariableBool at h
  repeat' split at h
  all_goals first
    | exact benign_ok h
    | exact benign_intErr h

theorem benign_updateVariableV {st : SymTab} {idv : String} {v : Value} {f : Fail}
    (h : updateVariableV st idv v = .error f) : benignFail f := by
  unfold updateVariableV SymTab.updateVariableInt SymTab.updateVariableBool at h
  repeat' split at h
  all_goals first
    | exact benign_ok h
    | exact benign_intErr h

theorem benign_exEx {r : Except Fail (PRes × Nat)} {f : Fail}
    (hr : ∀ f2, r = .error f2 → benignFail f2) (h : exEx r = .error f) : benignFail f := by
  unfold exEx at h
  split at h
  · exact benign_ok h
  · exact benign_stuck h
  · exact benign_err h (hr _ rfl)

theorem benign_exLoc {r : Except Fail (PRes × Nat)} {f : Fail}
    (hr : ∀ f2, r = .error f2 → benignFail f2) (h : exLoc r = .error f) : benignFail f := by
  unfold exLoc at h
  split at h
  · exact benign_ok h
  · exact benign_stuck h
  · exact benign_err h (hr _ rfl)

theorem benign_exStmtO {r : Except Fail (PRes × Nat)} {f : Fail}
    (hr : ∀ f2, r = .error f2 → benignFail f2) (h : exStmtO r = .error f) : benignFail f := by
  unfold exStmtO at h
  split at h
  · exact benign_ok h
  · exact benign_stuck h
  · exact benign_err h (hr _ rfl)

theorem benign_exBlk {r : Except Fail (PRes × Nat)} {f : Fail}
    (hr : ∀ f2, r = .error f2 → benignFail f2) (h : exBlk r = .error f) : benignFail f := by
  unfold exBlk at h
  split at h
  · exact benign_ok h
  · exact benign_stuck h
  · exact benign_err h (hr _ rfl)

theorem benign_exBlks {r : Except Fail (PRes × Nat)} {f : Fail}
    (hr : ∀ f2, r = .error f2 → benignFail f2) (h : exBlks r = .error f) : benignFail f := by
  unfold exBlks at h
  split at h
  · exact benign_ok h
  · exact benign_stuck h
  · exact benign_err h (hr _ rfl)

theorem benign_exStmts {r : Except Fail (PRes × Nat)} {f : Fail}
    (hr : ∀ f2, r = .error f2 → benignFail f2) (h : exStmts r = .error f) : benignFail f := by
  unfold exStmts at h
  split at h
  · exact benign_ok h
  · exact benign_stuck h
  · exact benign_err h (hr _ rfl)

theorem benign_indentHandle {ch : Char} {line col : Nat} {st : LexSt} {f : Fail}
    (h : indentHandle ch line col st = .error f) : benignFail f := by
  simp only [indentHandle] at h
  repeat' split at h
  all_goals first
    | exact benign_ok h
    | exact benign_stuck h
    | exact benign_indErr h

set_option maxHeartbeats 1600000 in
theorem evalCore_benign : ∀ (fuel : Nat) (st : SymTab) (t : EvalTask) (f : Fail),
    evalCore fuel st t = .error f → benignFail f := by
  intro fuel
  induction fuel with
  | zero =>
    intro st t f h
    exact benign_fuel h
  | succ n ih =>
    intro st t f h
    cases t with
    | ev e =>
      cases e <;>
        (simp only [evalCore] at h
         repeat' split at h
         all_goals solve_by_elim [benign_ok, benign_err, benign_stuck, benign_typErr,
           benign_semErr, benign_intErr, benign_zdvErr, benign_getBool, benign_getInt,
           benign_getVariableValueV, benign_getListSizeV, benign_getListElementV,
           benign_getListElement, ih])
    | dt e =>
      cases e <;>
        (simp only [evalCore] at h
         repeat' split at h
         all_goals solve_by_elim [benign_ok, benign_err, benign_stuck, benign_typErr,
           benign_semErr, benign_intErr, benign_zdvErr, benign_getBool, benign_getInt,
           benign_getVariableValueV, benign_getListSizeV, benign_getListElementV,
           benign_getListElement, ih])

set_option maxHeartbeats 1600000 in
theorem exec_benign : ∀ (fuel : Nat) (st : EvalSt) (t : VTask) (f : Fail),
    exec fuel st t = .error f → benignFail f := by
  intro fuel
  induction fuel with
  | zero =>
    intro st t f h
    exact benign_fuel h
  | succ n ih =>
    intro st t f h
    cases t with
    | stmt s =>
      cases s <;>
        (simp only [exec] at h
         repeat' split at h
         all_goals first
           | solve_by_elim [benign_ok, benign_err, benign_stuck, benign_semErr,
               benign_intErr, benign_getBool, benign_getInt, benign_updateVariableV,
               benign_addVariableV, benign_clearList, benign_appendToList,
               benign_updateListElement, evalCore_benign, ih]
           | (rename_i heq2
              split at heq2
              · first
                  | exact benign_err h (ih _ _ _ heq2)
                  | exact benign_err h (evalCore_benign _ _ _ _ heq2)
                  | exact benign_err h (benign_ok heq2)
              · first
                  | exact benign_err h (ih _ _ _ heq2)
                  | exact benign_err h (benign_ok heq2)))
    | seqStmts l =>
      simp only [exec] at h
      repeat' split at h
      all_goals solve_by_elim [benign_ok, benign_err, benign_stuck, evalCore_benign, ih]
    | ifBlocks1 bs =>
      cases bs with
      | nil =>
        simp only [exec] at h
        exact benign_ok h
      | cons b rest =>
        cases b <;>
          (simp only [exec] at h
           repeat' split at h
           all_goals solve_by_elim [benign_ok, benign_err, benign_stuck, ih])
    | ifBlocks2 bs =>
      cases bs with
      | nil =>
        simp only [exec] at h
        exact benign_ok h
      | cons b rest =>
        cases b <;>
          (simp only [exec] at h
           repeat' split at h
           all_goals solve_by_elim [benign_ok, benign_err, benign_stuck, ih])
    | elifT cond body line col =>
      simp only [exec] at h
      repeat' split at h
      all_goals solve_by_elim [benign_ok, benign_err, benign_stuck, benign_intErr,
        benign_getBool, evalCore_benign, ih]
    | elseT body line col =>
      simp only [exec] at h
      repeat' split at h
      all_goals solve_by_elim [benign_ok, benign_err, benign_stuck, benign_intErr, ih]
    | whileIter cond blocks line col =>
      simp only [exec] at h
      repeat' split at h
      all_goals solve_by_elim [benign_ok, benign_err, benign_stuck, benign_semErr,
        benign_getBool, evalCore_benign, ih]
    | whileBody l =>
      simp only [exec] at h
      repeat' split at h
      all_goals solve_by_elim [benign_ok, benign_err, benign_stuck, ih]

set_option maxHeartbeats 4000000 in
theorem parseCore_benign : ∀ (fuel : Nat) (toks : List Tok) (task : PTask) (i : Nat) (f : Fail),
    parseCore fuel toks task i = .error f → benignFail f := by
  intro fuel
  induction fuel with
  | zero =>
    intro toks task i f h
    exact benign_fuel h
  | succ n ih =>
    intro toks task i f h
    cases task <;>
      (simp only [parseCore] at h
       repeat' split at h
       all_goals first
         | solve_by_elim [benign_ok, benign_err, benign_stuck, benign_synErr,
             benign_intErr, benign_indErr, benign_lexErr, ih]
         | exact benign_err h (benign_exEx (fun f2 h2 => ih _ _ _ _ h2) (by assumption))
         | exact benign_err h (benign_exLoc (fun f2 h2 => ih _ _ _ _ h2) (by assumption))
         | exact benign_err h (benign_exStmtO (fun f2 h2 => ih _ _ _ _ h2) (by assumption))
         | exact benign_err h (benign_exBlk (fun f2 h2 => ih _ _ _ _ h2) (by assumption))
         | exact benign_err h (benign_exBlks (fun f2 h2 => ih _ _ _ _ h2) (by assumption))
         | exact benign_err h (benign_exStmts (fun f2 h2 => ih _ _ _ _ h2) (by assumption)))

theorem lexLoop_benign : ∀ (fuel : Nat) (st : LexSt) (cs : List Char) (f : Fail),
    lexLoop fuel st cs = .error f → benignFail f := by
  intro fuel
  induction fuel with
  | zero =>
    intro st cs f h
    exact benign_fuel h
  | succ n ih =>
    intro st cs f h
    cases cs with
    | nil =>
      simp only [lexLoop] at h
      split at h
      · exact benign_ok h
      · exact benign_lexErr h
    | cons ch rest =>
      simp only [lexLoop] at h
      by_cases hc1 : ((ch == ' ' || ch == '\t') &&
          (st.res.isEmpty || (headIsNewline st.res && st.indent))) = true
      · rw [if_pos hc1] at h
        exact ih _ _ _ h
      · rw [if_neg hc1] at h
        split at h
        · exact benign_err h (benign_indentHandle (by assumption))
        by_cases hb1 : isLetterCh ch = true
        · rw [if_pos hb1] at h
          repeat' split at h
          all_goals first
            | exact ih _ _ _ h
            | exact benign_lexErr h
            | exact benign_stuck h
        rw [if_neg hb1] at h
        by_cases hb2 : isDigit19 ch = true
        · rw [if_pos hb2] at h
          repeat' split at h
          all_goals first
            | exact ih _ _ _ h
            | exact benign_lexErr h
            | exact benign_stuck h
        rw [if_neg hb2] at h
        by_cases hb3 : (ch == '\n' || ch == '\x0d') = true
        · rw [if_pos hb3] at h
          repeat' split at h
          all_goals first
            | exact ih _ _ _ h
            | exact benign_lexErr h
            | exact benign_stuck h
        rw [if_neg hb3] at h
        by_cases hb4 : (ch == '0') = true
        · rw [if_pos hb4] at h
          repeat' split at h
          all_goals first
            | exact ih _ _ _ h
            | exact benign_lexErr h
            | exact benign_stuck h
        rw [if_neg hb4] at h
        by_cases hb5 : (ch == '=') = true
        · rw [if_pos hb5] at h
          repeat' split at h
          all_goals first
            | exact ih _ _ _ h
            | exact benign_lexErr h
            | exact benign_stuck h
        rw [if_neg hb5] at h
        by_cases hb6 : (ch == '!' && decide (rest.head? = some '=')) = true
        · rw [if_pos hb6] at h
          repeat' split at h
          all_goals first
            | exact ih _ _ _ h
            | exact benign_lexErr h
            | exact benign_stuck h
        rw [if_neg hb6] at h
        by_cases hb7 : (ch == '<') = true
        · rw [if_pos hb7] at h
          repeat' split at h
          all_goals first
            | exact ih _ _ _ h
            | exact benign_lexErr h
            | exact benign_stuck h
        rw [if_neg hb7] at h
        by_cases hb8 : (ch == '>') = true
        · rw [if_pos hb8] at h
          repeat' split at h
          all_goals first
            | exact ih _ _ _ h
            | exact benign_lexErr h
            | exact benign_stuck h
        rw [if_neg hb8] at h
        by_cases hb9 : (ch == '+') = true
        · rw [if_pos hb9] at h
          repeat' split at h
          all_goals first
            | exact ih _ _ _ h
            | exact benign_lexErr h
            | exact benign_stuck h
        rw [if_neg hb9] at h
        by_cases hb10 : (ch == '-') = true
        · rw [if_pos hb10] at h
          repeat' split at h
          all_goals first
            | exact ih _ _ _ h
            | exact benign_lexErr h
            | exact benign_stuck h
        rw [if_neg hb10] at h
        by_cases hb11 : (ch == '*') = true
        · rw [if_pos hb11] at h
          repeat' split at h
          all_goals first
            | exact ih _ _ _ h
            | exact benign_lexErr h
            | exact benign_stuck h
        rw [if_neg hb11] at h
        by_cases hb12 : (ch == '/') = true
        · rw [if_pos hb12] at h
          repeat' split at h
          all_goals first
            | exact ih _ _ _ h
            | exact benign_lexErr h
            | exact benign_stuck h
        rw [if_neg hb12] at h
        by_cases hb13 : (ch == ':') = true
        · rw [if_pos hb13] at h
          repeat' split at h
          all_goals first
            | exact ih _ _ _ h
            | exact benign_lexErr h
            | exact benign_stuck h
        rw [if_neg hb13] at h
        by_cases hb14 : (ch == '.') = true
        · rw [if_pos hb14] at h
          repeat' split at h
          all_goals first
            | exact ih _ _ _ h
            | exact benign_lexErr h
            | exact benign_stuck h
        rw [if_neg hb14] at h
        by_cases hb15 : (ch == '(') = true
        · rw [if_pos hb15] at h
          repeat' split at h
          all_goals first
            | exact ih _ _ _ h
            | exact benign_lexErr h
            | exact benign_stuck h
        rw [if_neg hb15] at h
        by_cases hb16 : (ch == ')') = true
        · rw [if_pos hb16] at h
          repeat' split at h
          all_goals first
            | exact ih _ _ _ h
            | exact benign_lexErr h
            | exact benign_stuck h
        rw [if_neg hb16] at h
        by_cases hb17 : (ch == '[') = true
        · rw [if_pos hb17] at h
          repeat' split at h
          all_goals first
            | exact ih _ _ _ h
            | exact benign_lexErr h
            | exact benign_stuck h
        rw [if_neg hb17] at h
        by_cases hb18 : (ch == ']') = true
        · rw [if_pos hb18] at h
          repeat' split at h
          all_goals first
            | exact ih _ _ _ h
            | exact benign_lexErr h
            | exact benign_stuck h
        rw [if_neg hb18] at h
        by_cases hb19 : (ch == ' ') = true
        · rw [if_pos hb19] at h
          repeat' split at h
          all_goals first
            | exact ih _ _ _ h
            | exact benign_lexErr h
            | exact benign_stuck h
        rw [if_neg hb19] at h
        exact benign_lexErr h

theorem lexFile_benign {s : String} {f : Fail} (h : lexFile s = .error f) : benignFail f :=
  lexLoop_benign _ _ _ _ h

theorem parseProg_benign {fuel : Nat} {toks : List Tok} {f : Fail}
    (h : parseProg fuel toks = .error f) : benignFail f := by
  unfold parseProg at h
  split at h
  · exact benign_ok h
  · exact benign_stuck h
  · exact benign_err h (parseCore_benign _ _ _ _ _ (by assumption))

theorem runProgram_benign {fuel : Nat} {prog : List Stmt} {f : Fail}
    (h : runProgram fuel prog = .error f) : benignFail f := by
  unfold runProgram at h
  split at h
  · exact benign_ok h
  · exact benign_err h (exec_benign _ _ _ _ (by assumption))

theorem interp_benign {fuel : Nat} {src : String} {f : Fail}
    (h : interp fuel src = .error f) : benignFail f := by
  unfold interp at h
  split at h
  · exact benign_err h (lexFile_benign (by assumption))
  · split at h
    · exact benign_err h (parseProg_benign (by assumption))
    · exact runProgram_benign h

/-- C10: no execution of the embedded interpreter ever produces a
diagnostic of category INDEX_ERROR, EVALUATION_ERROR or
RESERVED_KEYWORD_ERROR: every categorized error returned by the lexer
(lexFile), the parser (parseProg), the statement executor (runProgram)
or the whole pipeline (interp) carries one of the other codes of the
taxonomy.  The three classes exist in error.h but no throw site uses
them. -/
theorem c10_dead_error_classes :
    (∀ (s : String) (f : Fail), lexFile s = .error f → benignFail f) ∧
    (∀ (fuel : Nat) (toks : List Tok) (f : Fail),
      parseProg fuel toks = .error f → benignFail f) ∧
    (∀ (fuel : Nat) (prog : List Stmt) (f : Fail),
      runProgram fuel prog = .error f → benignFail f) ∧
    (∀ (fuel : Nat) (src : String) (f : Fail),
      interp fuel src = .error f → benignFail f) :=
  ⟨fun _ _ h => lexFile_benign h, fun _ _ _ h => parseProg_benign h,
   fun _ _ _ h => runProgram_benign h, fun _ _ _ h => interp_benign h⟩

/-- Witness for C10 at the concrete input /: the lexer fails with a
LEXICAL_ERROR, which is none of the three dead classes. -/
theorem c10_dead_error_classes_witness :
    benignFail (.err ⟨.LEXICAL_ERROR, 1, 1,
      "Invalid character / (did you mean // for integer division?)"⟩) :=
  c10_dead_error_classes.1 ⟨['/']⟩ _ (by rfl)

set_option maxRecDepth 10000 in
/-- C1 (refuted, code bug): the scenario-6 program prints 0, 1, 2 AND 3,
not 0, 1, 2 as the claim and the spec state.  The body loop of
visitWhileStatement only checks whether the CURRENT statement is a
top-level BreakStatement; after the break inside the if branch sets
the loop flag, the remaining statements of the same iteration still
execute, so print(i) runs once more with i = 3. -/
theorem c1_break_scenario6 : interp 300 scenario6 = .ok ["0", "1", "2", "3"] := by rfl

set_option maxRecDepth 10000 in
/-- C2 counterexample: evaluating print(True or x) with x undefined
raises SemanticError "Variable is not defined" at 1:15, because eval
type-checks the right operand with getDataType before any
short-circuiting; the claim says no SemanticError is raised. -/
theorem c2_counterexample :
    interp 20 "print(True or x)\n" =
      .error (.err ⟨.SEMANTIC_ERROR, 1, 15, "Variable is not defined"⟩) := by rfl

/-- Witness for C2 (amended) at a concrete right operand 1 // 0 == 0:
its getDataType is TYPE_BOOL, and both short-circuits return without
raising the ZeroDivisionError that evaluating it would raise. -/
theorem c2am_witness :
    evalCore 4 { intVars := [], boolVars := [], lists := [] }
      (.dt (.eqE .EQ (.mulE .DIV (.numE 1 1 1) (.numE 0 1 1) 1 1) (.numE 0 1 1) 1 1)) =
        .ok (.ty .TYPE_BOOL) ∧
    evalCore 5 { intVars := [], boolVars := [], lists := [] }
      (.ev (.orE (.boolE true 1 1)
        (.eqE .EQ (.mulE .DIV (.numE 1 1 1) (.numE 0 1 1) 1 1) (.numE 0 1 1) 1 1) 1 1)) =
        .ok (.val (.b true)) ∧
    evalCore 5 { intVars := [], boolVars := [], lists := [] }
      (.ev (.andE (.boolE false 1 1)
        (.eqE .EQ (.mulE .DIV (.numE 1 1 1) (.numE 0 1 1) 1 1) (.numE 0 1 1) 1 1) 1 1)) =
        .ok (.val (.b false)) :=
  ⟨by rfl,
   (c2am 3 { intVars := [], boolVars := [], lists := [] } _ 1 1 1 1 (by rfl)).1,
   (c2am 3 { intVars := [], boolVars := [], lists := [] } _ 1 1 1 1 (by rfl)).2⟩

set_option maxRecDepth 10000 in
/-- C3 (refuted, code bug): a single and parses, but the chained
conjunction x = True and False and True is a SyntaxError at 1:22.
Parser::parseAndExpr consumes the right operand with parseEquality and
never loops or recurses into another AndExpr, so the second and is left
unconsumed and the assignment statement sees no newline. -/
theorem c3_and_chain :
    interp 300 "x = True and False\n" = .ok [] ∧
    interp 300 "x = True and False and True\n" =
      .error (.err ⟨.SYNTAX_ERROR, 1, 22,
        "Expected newline at the end of assignment statement"⟩) :=
  ⟨by rfl, by rfl⟩

/-- C4 counterexample: the single-letter file x is tokenized with
column 1, but the 0-based column of the token first byte required by
the claim is 0. -/
theorem c4_counterexample :
    lexFile "x" = .ok [.id "x" 1 1, .eof 1 1] ∧ (Tok.id "x" 1 1).colm ≠ 0 :=
  ⟨by rfl, by decide⟩

/-- Witness for C5 on the list l = [7]: reading l[0] yields 7 and
reading l[9] raises SemanticError "List index out of bounds". -/
theorem c5_witness :
    evalCore 2 { intVars := [], boolVars := [], lists := [("l", [Value.i 7])] }
      (.ev (.elemE "l" (.numE 0 1 1) 1 2)) = .ok (.val (.i 7)) ∧
    evalCore 2 { intVars := [], boolVars := [], lists := [("l", [Value.i 7])] }
      (.ev (.elemE "l" (.numE 9 1 1) 1 2)) =
      .error (.err ⟨.SEMANTIC_ERROR, 1, 2, "List index out of bounds"⟩) :=
  ⟨(c5 1 { intVars := [], boolVars := [], lists := [("l", [Value.i 7])] }
      "l" [Value.i 7] (.numE 0 1 1) 0 1 2 (by rfl) (by rfl)).2 (by decide) (by decide),
   (c5 1 { intVars := [], boolVars := [], lists := [("l", [Value.i 7])] }
      "l" [Value.i 7] (.numE 9 1 1) 9 1 2 (by rfl) (by rfl)).1 (by decide)⟩

/-- Witness for C6: declaring x = list() with x already an int variable
raises SemanticError, and declaring y = list() in an empty table binds
the empty list. -/
theorem c6_witness :
    exec 1 { tab := { intVars := [("x", 1)], boolVars := [], lists := [] },
             condStack := [], loopStack := [], out := [] } (.stmt (.listDecl "x" 1 1)) =
      .error (.err ⟨.SEMANTIC_ERROR, 1, 1, "Identifier is already defined"⟩) ∧
    exec 1 { tab := { intVars := [], boolVars := [], lists := [] },
             condStack := [], loopStack := [], out := [] } (.stmt (.listDecl "y" 1 1)) =
      .ok { tab := { intVars := [], boolVars := [], lists := [("y", [])] },
            condStack := [], loopStack := [], out := [] } :=
  ⟨(c6 0 { tab := { intVars := [("x", 1)], boolVars := [], lists := [] },
           condStack := [], loopStack := [], out := [] } "x" 1 1).1 (by rfl),
   (c6 0 { tab := { intVars := [], boolVars := [], lists := [] },
           condStack := [], loopStack := [], out := [] } "y" 1 1).2 (by rfl)⟩

/-- Witness for C7: assigning the scalar 5 to x while x is bound as a
list yields a state where the list binding is gone and x is a defined
scalar. -/
theorem c7_witness :
    exec 2 { tab := { intVars := [], boolVars := [], lists := [("x", [])] },
             condStack := [], loopStack := [], out := [] }
        (.stmt (.assign (.idL "x" 1 1) (.numE 5 1 1) 1 1)) =
      .ok { tab := { intVars := [("x", 5)], boolVars := [], lists := [] },
            condStack := [], loopStack := [], out := [] } ∧
    lookupA ({ intVars := [("x", 5)], boolVars := [], lists := [] } : SymTab).lists "x" = none ∧
    SymTab.isVariableDefined { intVars := [("x", 5)], boolVars := [], lists := [] } "x" = true :=
  ⟨by rfl,
   c7_single_slot.2 1
     { tab := { intVars := [], boolVars := [], lists := [("x", [])] },
       condStack := [], loopStack := [], out := [] }
     "x" (.numE 5 1 1) 1 1 1 1
     { tab := { intVars := [("x", 5)], boolVars := [], lists := [] },
       condStack := [], loopStack := [], out := [] }
     (by
       refine ⟨by simp, by simp, by simp, ?_⟩
       intro k
       constructor
       · intro hk
         simp [lookupA] at hk
       · intro hk
         simp [lookupA] at hk)
     (by simp [lookupA])
     (by rfl)
     (by rfl)⟩

/-- C9: on the one-character input ] the bracket guard evaluates
parStack_.back() on the empty stack before testing emptiness, which has
no defined value (the stuck outcome of the embedding); the
corresponding ) guard tests emptiness first and reaches the
LexicalError "Mismatched parenthesis". -/
theorem c9_bracket_guard :
    lexFile "]" = .error .stuck ∧
    lexFile ")" = .error (.err ⟨.LEXICAL_ERROR, 1, 1, "Mismatched parenthesis"⟩) :=
  ⟨by rfl, by rfl⟩
